import Mathlib

/-!
Verification development for the grouping + multi-criteria filter/highlight
engine of the `pyqt-advanced-tree-widget` repository.

The embedding models the tree-widget state that the grouping and filtering
code of `widgets/groupable_tree_widget.py` and
`widgets/advanced_filter_search_widget.py` (plus the legacy
`AdvancedFilterSearch.py`) operates on.  The widget only ever builds
two-level trees: `add_items` creates flat top-level rows, and
`group_by_column` (which first calls `ungroup_all`) nests rows exactly one
level below synthetic group nodes.  The state type therefore has top-level
nodes each carrying a list of child items.

Python tree items are mutable objects compared by object identity; the
field `iid` models that object identity (two distinct live objects have
distinct `iid`s; freshly created group items draw fresh `iid`s from the
`nextIid` counter).  Cell data in this repository's examples is string
valued and the `DisplayRole` text agrees with the stored `UserRole` value,
so a single `texts` list per item models both roles.
-/

namespace Patw

/-- One Qt tree item: object identity, per-column texts, hidden flag.
Mirrors `TreeWidgetItem` of `widgets/groupable_tree_widget.py` (the `id`
attribute of row items is their construction id; `iid` models the Python
object identity which for row items coincides with that id, and for group
items — whose `id` is `None` — is a fresh number). -/
structure Item where
  iid : Nat
  texts : List String
  hidden : Bool
deriving DecidableEq, Repr

/-- `TreeWidgetItem.get_value` / display text for a column: out-of-range
columns read as the empty string (Qt returns an empty text there). -/
def Item.text (a : Item) (col : Nat) : String :=
  a.texts.getD col ""

/-- A top-level node of the (at most two-level) tree together with its
child row items. -/
structure TNode where
  item : Item
  children : List Item
deriving DecidableEq, Repr

/-- The `GroupableTreeWidget` state touched by the grouping/filter engine:
column schema, current header labels (label 0 is renamed while grouped),
hidden columns, the current grouped column name (empty string = flat),
the top-level items, and the fresh-object counter backing `iid`
allocation for synthetic group items. -/
structure TreeWidget where
  column_name_list : List String
  headerLabels : List String
  hiddenColumns : List Nat
  grouped_column_name : String
  topLevelItems : List TNode
  nextIid : Nat
deriving DecidableEq, Repr

/-- The object-wide identity invariant backing `iid` freshness: every node
of the tree has `iid` below the allocation counter. -/
def iidBound (tw : TreeWidget) : Prop :=
  ∀ t ∈ tw.topLevelItems, t.item.iid < tw.nextIid ∧ ∀ c ∈ t.children, c.iid < tw.nextIid

/-- Python `item in list` on Qt tree items compares by object identity;
under the distinct-`iid` modelling this is `iid` membership. -/
def itemIn (a : Item) (l : List Item) : Bool :=
  l.any (fun b => b.iid == a.iid)

/-- `intersection(item_list_1, item_list_2)` from
`widgets/advanced_filter_search_widget.py`: the elements of the first list
that are (identity-)members of the second. -/
def intersection (l1 l2 : List Item) : List Item :=
  l1.filter (fun a => itemIn a l2)

/-- Whether some element of `l` has identity `i` (the `iid` image of a
list of items, used to state set-level facts). -/
def iidMem (i : Nat) (l : List Item) : Bool :=
  l.any (fun a => a.iid == i)

/-- One step of the Python dict insertion in `_create_item_groups`:
append `a` to the bucket of `key`, creating the bucket at the end on
first occurrence (Python dicts preserve insertion order). -/
def addToGroups (groups : List (String × List Item)) (key : String) (a : Item) :
    List (String × List Item) :=
  if groups.any (fun g => g.1 == key) then
    groups.map (fun g => if g.1 == key then (g.1, g.2 ++ [a]) else g)
  else
    groups ++ [(key, [a])]

/-- The grouping key of a cell value (`_create_item_groups` rebinding
`item_data = '_others'` when the value is empty/falsy). -/
def keyOf (v : String) : String :=
  if v = "" then "_others" else v

/-- `GroupableTreeWidget._create_item_groups`: partition the (data, item)
pairs — `data[i]` is `topLevelItem(i)`'s value in the grouping column —
into buckets keyed by value, with empty/falsy values going to the
`"_others"` catch-all bucket.  The caller zips `data` with the top-level
items it was read from. -/
def createItemGroups (pairs : List (String × Item)) : List (String × List Item) :=
  pairs.foldl (fun groups p => addToGroups groups (keyOf p.1) p.2) []

/-- The synthetic group item `TreeWidgetItem(self, [group_name])`: text
`group_name` in column 0 only, fresh object identity, not hidden. -/
def mkGroupItem (nid : Nat) (key : String) : Item :=
  Item.mk nid [key] false

/-- One iteration of the group-building loop in `group_by_column`: the new
group item is appended as a top-level item and every member is removed
from the top level (by object identity) and re-added as a child of the
group. -/
def groupStep (st : List TNode × Nat) (g : String × List Item) : List TNode × Nat :=
  (st.1.filter (fun t => !(itemIn t.item g.2)) ++ [TNode.mk (mkGroupItem st.2 g.1) g.2],
   st.2 + 1)

/-- One iteration of the loop in `ungroup_all`: take the children of the
group item, append them as top-level items, and remove the group item
itself from the top level. -/
def ungroupStep (tl : List TNode) (g : TNode) : List TNode :=
  tl.filter (fun t => t.item.iid != g.item.iid) ++ g.children.map (fun c => TNode.mk c [])

/-- `GroupableTreeWidget.ungroup_all`: no-op when flat; otherwise restore
header label 0 and the hidden column, move every group's children back to
the top level group by group, delete the group items and clear the
grouped column name. -/
def ungroup_all (tw : TreeWidget) : TreeWidget :=
  if tw.grouped_column_name = "" then tw
  else
    { tw with
      headerLabels := tw.headerLabels.set 0 (tw.column_name_list.getD 0 ""),
      hiddenColumns := tw.hiddenColumns.filter
        (fun i => i != tw.column_name_list.indexOf tw.grouped_column_name),
      grouped_column_name := "",
      topLevelItems := tw.topLevelItems.foldl ungroupStep tw.topLevelItems }

/-- `GroupableTreeWidget.group_by_column`: first ungroup, then hide the
grouping column, record the grouped column name (the header text of the
chosen column), rename header label 0, read each top-level item's value in
the grouping column, partition into groups, and reparent every row under
its group item. -/
def group_by_column (tw0 : TreeWidget) (column : Nat) : TreeWidget :=
  let tw := ungroup_all tw0
  let gname := tw.headerLabels.getD column ""
  let data := tw.topLevelItems.map (fun t => t.item.text column)
  let groups := createItemGroups (data.zip (tw.topLevelItems.map (fun t => t.item)))
  let st := groups.foldl groupStep (tw.topLevelItems, tw.nextIid)
  { tw with
    hiddenColumns := column :: tw.hiddenColumns,
    grouped_column_name := gname,
    headerLabels := tw.headerLabels.set 0 (gname ++ " / " ++ tw.headerLabels.getD 0 ""),
    topLevelItems := st.1,
    nextIid := st.2 }

/-- The recursion of `utils/tree_utils.extract_all_items_from_tree`: each
node is emitted before its children are traversed (depth-first,
parent-before-children). -/
def extractGo : List TNode → List Item
  | [] => []
  | t :: rest => t.item :: (t.children ++ extractGo rest)

/-- `extract_all_items_from_tree` / `GroupableTreeWidget.get_all_items`. -/
def extract_all_items_from_tree (tw : TreeWidget) : List Item :=
  extractGo tw.topLevelItems

/-- Alias used by the widget (`get_all_items` simply delegates). -/
def get_all_items (tw : TreeWidget) : List Item :=
  extract_all_items_from_tree tw

/-- `TreeWidgetItem.get_child_level` for a node of this tree: 0 when the
item sits at the top level, 1 when it is a child of a top-level node. -/
def childLevelIn (tw : TreeWidget) (a : Item) : Nat :=
  if tw.topLevelItems.any (fun t => t.item.iid == a.iid) then 0 else 1

/-- `GroupableTreeWidget.get_all_items_at_child_level`: level 0 returns
the top-level items directly; any other level filters the full traversal
by computed child level. -/
def get_all_items_at_child_level (tw : TreeWidget) (level : Nat) : List Item :=
  if level = 0 then tw.topLevelItems.map (fun t => t.item)
  else (get_all_items tw).filter (fun a => childLevelIn tw a == level)

/-- The match conditions of `CONDITION_TO_MATCH_FLAG_DICT`. -/
inductive Condition where
  | contains
  | starts_with
  | ends_with
  | exact_match
  | wild_card
  | reg_exp
deriving DecidableEq, Repr

/-- The string-keyed lookup `CONDITION_TO_MATCH_FLAG_DICT[condition]`
(`none` models the `KeyError` raised on an unknown condition name). -/
def conditionOfString (s : String) : Option Condition :=
  if s = "contains" then some .contains
  else if s = "starts_with" then some .starts_with
  else if s = "ends_with" then some .ends_with
  else if s = "exact_match" then some .exact_match
  else if s = "wild_card" then some .wild_card
  else if s = "reg_exp" then some .reg_exp
  else none

/-- Substring test on character lists (Qt `MatchContains`). -/
def containsAux (kw : List Char) : List Char → Bool
  | [] => kw.isPrefixOf []
  | c :: rest => kw.isPrefixOf (c :: rest) || containsAux kw rest

/-- `value` contains `keyword` as a substring. -/
def strContains (tx kw : String) : Bool :=
  containsAux kw.data tx.data

/-- Glob matching for Qt `MatchWildcard` (`*` any run, `?` any char). -/
def globMatch : List Char → List Char → Bool
  | [], [] => true
  | '*' :: ps, [] => globMatch ps []
  | '*' :: ps, c :: cs => globMatch ps (c :: cs) || globMatch ('*' :: ps) cs
  | '?' :: _, [] => false
  | '?' :: ps, _ :: cs => globMatch ps cs
  | p :: ps, c :: cs => (p == c) && globMatch ps cs
  | _ :: _, [] => false
  | [], _ :: _ => false
termination_by p s => (s.length, p.length)

/-- The per-cell text match performed by `QTreeWidget.findItems` for one
condition flag.  Case-insensitive mode compares lowercased strings.  The
`reg_exp` condition delegates to Qt's regular-expression engine, which is
outside this repository; it is modelled by the ambient matcher `rm`
(case-sensitivity flag, pattern, text). -/
def matchesText (rm : Bool → String → String → Bool) (cond : Condition)
    (cs : Bool) (kw tx : String) : Bool :=
  match cond with
  | .contains => if cs then strContains tx kw else strContains tx.toLower kw.toLower
  | .starts_with => if cs then tx.startsWith kw else tx.toLower.startsWith kw.toLower
  | .ends_with => if cs then tx.endsWith kw else tx.toLower.endsWith kw.toLower
  | .exact_match => if cs then tx == kw else tx.toLower == kw.toLower
  | .wild_card =>
      if cs then globMatch kw.data tx.data else globMatch kw.toLower.data tx.toLower.data
  | .reg_exp => rm cs kw tx

/-- `QTreeWidget.findItems(keyword, flags, column)`: without
`MatchRecursive` only the top-level items are candidates; with it every
item of the tree is.  Hidden state does not affect matching. -/
def findItems (rm : Bool → String → String → Bool) (tw : TreeWidget) (kw : String)
    (cond : Condition) (cs recursive : Bool) (col : Nat) : List Item :=
  (if recursive then get_all_items tw else tw.topLevelItems.map (fun t => t.item)).filter
    (fun a => matchesText rm cond cs kw (a.text col))

/-- The exceptions `find_match_items` can raise: `KeyError` on an unknown
condition string, `ValueError` from `list.index` on an unknown column. -/
inductive FilterError where
  | unknownCondition
  | unknownColumn
deriving DecidableEq, Repr

/-- `AdvancedFilterSearch.find_match_items` of
`widgets/advanced_filter_search_widget.py`: resolve the condition and the
column index, search child level 1 with `MatchRecursive` whenever the
tree is grouped (level 0 otherwise), intersect the raw matches with the
items at that level, and complement within that level when negated. -/
def find_match_items (rm : Bool → String → String → Bool) (tw : TreeWidget)
    (column_names : List String) (column condition keyword : String)
    (is_negate is_case_sensitive : Bool) : Except FilterError (List Item) :=
  match conditionOfString condition with
  | none => .error .unknownCondition
  | some cond =>
    match column_names.findIdx? (fun n => n == column) with
    | none => .error .unknownColumn
    | some column_index =>
      let grouped := tw.grouped_column_name != ""
      let child_level := if grouped then 1 else 0
      let all_at := get_all_items_at_child_level tw child_level
      let m := findItems rm tw keyword cond is_case_sensitive grouped column_index
      let mAt := intersection all_at m
      .ok (if is_negate then all_at.filter (fun a => !(itemIn a mAt)) else mAt)

/-- `AdvancedFilterSearch.find_match_items` of the legacy
`src/AdvancedFilterSearch.py`: when the searched column IS the grouped
column the scope is the top level (group nodes matched by the group key
text held in column 0) and the search is non-recursive; otherwise, when
grouped, the scope is child level 1 with `MatchRecursive`, and when flat
it is the top level. -/
def legacy_find_match_items (rm : Bool → String → String → Bool) (tw : TreeWidget)
    (column_names : List String) (column condition keyword : String)
    (is_negate is_case_sensitive : Bool) : Except FilterError (List Item) :=
  match conditionOfString condition with
  | none => .error .unknownCondition
  | some cond =>
    let grouped := tw.grouped_column_name != ""
    let onGrouped := grouped && (column == tw.grouped_column_name)
    match if onGrouped then some 0 else column_names.findIdx? (fun n => n == column) with
    | none => .error .unknownColumn
    | some column_index =>
      let recursive := grouped && !(column == tw.grouped_column_name)
      let child_level := if recursive then 1 else 0
      let all_at := get_all_items_at_child_level tw child_level
      let m := findItems rm tw keyword cond is_case_sensitive recursive column_index
      let mAt := intersection all_at m
      .ok (if is_negate then all_at.filter (fun a => !(itemIn a mAt)) else mAt)

/-- One stored filter rule (`filter_criteria_list` entry:
`[column, condition, keyword, is_negate, is_case_sensitive]`). -/
structure FilterCriteria where
  column : String
  condition : String
  keyword : String
  is_negate : Bool
  is_case_sensitive : Bool
deriving DecidableEq, Repr

/-- The hide-all prologue of `_apply_filters`: every item of the tree is
hidden before the per-rule matching runs. -/
def hideAllItems (tw : TreeWidget) : TreeWidget :=
  { tw with topLevelItems := tw.topLevelItems.map (fun t =>
      TNode.mk { t.item with hidden := true }
        (t.children.map (fun c => { c with hidden := true }))) }

/-- The effect of one iteration of `show_matching_items` on one top-level
node: the matched item itself is shown; if the matched item is this node
all of its children are shown too; if the matched item is one of this
node's children, the node (its parent) is shown as well. -/
def showOneNode (a : Item) (t : TNode) : TNode :=
  if t.item.iid == a.iid then
    TNode.mk { t.item with hidden := false }
      (t.children.map (fun c => { c with hidden := false }))
  else if t.children.any (fun c => c.iid == a.iid) then
    TNode.mk { t.item with hidden := false }
      (t.children.map (fun c => if c.iid == a.iid then { c with hidden := false } else c))
  else t

/-- `AdvancedFilterSearch.show_matching_items` (same body as
`GroupableTreeWidget.show_items`): for each matched item, show it, its
parent, and all of its children. -/
def show_matching_items (tw : TreeWidget) (match_items : List Item) : TreeWidget :=
  { tw with topLevelItems :=
      match_items.foldl (fun tl a => tl.map (showOneNode a)) tw.topLevelItems }

/-- The visibility application of `_apply_filters` / spec
`apply_visibility`: hide everything, then show each member of the visible
set together with its parent and children. -/
def apply_visibility (tw : TreeWidget) (visible : List Item) : TreeWidget :=
  show_matching_items (hideAllItems tw) visible

/-- Whether `find_match_items` raises on this rule, and which error. -/
def criterionError (column_names : List String) (c : FilterCriteria) :
    Option FilterError :=
  match conditionOfString c.condition with
  | none => some .unknownCondition
  | some _ =>
    match column_names.findIdx? (fun n => n == c.column) with
    | none => some .unknownColumn
    | some _ => none

/-- The rule loop of `_apply_filters`: intersect the running item list
with each rule's matches; a raised error aborts the loop, leaving the
(already all-hidden) tree as it stands. -/
def applyFiltersGo (rm : Bool → String → String → Bool) (tw : TreeWidget)
    (column_names : List String) (running : List Item) :
    List FilterCriteria → TreeWidget × Option FilterError
  | [] => (show_matching_items tw running, none)
  | c :: rest =>
    match find_match_items rm tw column_names c.column c.condition c.keyword
        c.is_negate c.is_case_sensitive with
    | .error e => (tw, some e)
    | .ok m => applyFiltersGo rm tw column_names (intersection m running) rest

/-- `AdvancedFilterSearch._apply_filters`: snapshot all items, hide them
all, intersect the match results of every stored rule starting from the
full item list, and show the surviving items (with parents and
children). -/
def apply_filters (rm : Bool → String → String → Bool) (tw : TreeWidget)
    (column_names : List String) (criteria : List FilterCriteria) :
    TreeWidget × Option FilterError :=
  let allItems := get_all_items tw
  let tw1 := hideAllItems tw
  applyFiltersGo rm tw1 column_names allItems criteria

/-- The match result of one stored rule (empty on a raised error), used to
state the closed form of the `_apply_filters` intersection loop. -/
def matchList (rm : Bool → String → String → Bool) (tw : TreeWidget)
    (cols : List String) (c : FilterCriteria) : List Item :=
  match find_match_items rm tw cols c.column c.condition c.keyword c.is_negate
      c.is_case_sensitive with
  | .ok m => m
  | .error _ => []

/-- `HighlightItemDelegate` highlight state (`widgets/item_delegate.py`):
the general match list, the focused-cell list, and the selection list.
Model indexes are (row, column) pairs. -/
structure HighlightItemDelegate where
  target_model_indexes : List (Nat × Nat)
  target_focused_model_indexes : List (Nat × Nat)
  target_selected_model_indexes : List (Nat × Nat)
deriving DecidableEq, Repr

/-- `HighlightItemDelegate.clear`: empties the match and focused lists;
the selection list is not touched. -/
def HighlightItemDelegate.clear (d : HighlightItemDelegate) : HighlightItemDelegate :=
  { d with target_model_indexes := [], target_focused_model_indexes := [] }

/-- A concrete regular-expression matcher instantiation used by the
concrete evaluations (matches nothing). -/
def rmNone : Bool → String → String → Bool := fun _ _ _ => false

/-- Concrete rows of the specification's walkthrough scenario. -/
def rowAlice : Item := Item.mk 1 ["1", "Alice", "NY"] false

def rowBob : Item := Item.mk 2 ["2", "Bob", "NY"] false

def rowCarl : Item := Item.mk 3 ["3", "Carl", "LA"] false

/-- Flat demo tree: Alice/NY, Bob/NY, Carl/LA. -/
def demoFlat : TreeWidget :=
  TreeWidget.mk ["id", "Name", "City"] ["id", "Name", "City"] [] ""
    [TNode.mk rowAlice [], TNode.mk rowBob [], TNode.mk rowCarl []] 4

/-- Flat demo tree with interleaved group keys: Alice/NY, Carl/LA, Bob/NY. -/
def demoInterleaved : TreeWidget :=
  TreeWidget.mk ["id", "Name", "City"] ["id", "Name", "City"] [] ""
    [TNode.mk rowAlice [], TNode.mk rowCarl [], TNode.mk rowBob []] 4

/-- The demo tree grouped by the City column. -/
def demoGrouped : TreeWidget :=
  group_by_column demoFlat 2

/-- Flat demo tree in which both rows have an empty City value. -/
def demoEmptyCity : TreeWidget :=
  TreeWidget.mk ["id", "Name", "City"] ["id", "Name", "City"] [] ""
    [TNode.mk (Item.mk 1 ["1", "Alice", ""] false) [],
     TNode.mk (Item.mk 2 ["2", "Bob", ""] false) []] 3

/-! Proof-support definitions: denotations of the imperative loops above,
used to state and prove the closed forms. -/

/-- Whether processing the match list `S` shows the top-level node `t`
(it is matched itself, or one of its children is). -/
def hitNode (S : List Item) (t : TNode) : Bool :=
  S.any (fun a => t.item.iid == a.iid || t.children.any (fun c => c.iid == a.iid))

/-- Whether processing the match list `S` shows the child `c` of the
top-level node `t` (its parent is matched, or it is matched itself). -/
def hitChild (S : List Item) (t : TNode) (c : Item) : Bool :=
  S.any (fun a => t.item.iid == a.iid || c.iid == a.iid)

/-- Denotation of the `show_matching_items` loop on one top-level node:
a node stays hidden exactly when it was hidden and no list entry shows
it. -/
def applyShow (S : List Item) (t : TNode) : TNode :=
  TNode.mk { t.item with hidden := t.item.hidden && !(hitNode S t) }
    (t.children.map (fun c => { c with hidden := c.hidden && !(hitChild S t c) }))

/-- The group nodes created by the `group_by_column` loop, one per bucket
in first-occurrence order, with consecutively allocated identities. -/
def buildGroups : List (String × List Item) → Nat → List TNode
  | [], _ => []
  | g :: gs, n => TNode.mk (mkGroupItem n g.1) g.2 :: buildGroups gs (n + 1)

/-! ### Basic lemmas -/

theorem itemIn_eq_iidMem (a : Item) (l : List Item) : itemIn a l = iidMem a.iid l := rfl

theorem itemIn_of_mem {a : Item} {l : List Item} (h : a ∈ l) : itemIn a l = true := by
  simp only [itemIn, List.any_eq_true]
  exact ⟨a, h, by simp⟩

theorem iidMem_of_mem {a : Item} {l : List Item} (h : a ∈ l) : iidMem a.iid l = true :=
  itemIn_of_mem h

theorem iidMem_intersection (i : Nat) (l1 l2 : List Item) :
    iidMem i (intersection l1 l2) = (iidMem i l1 && iidMem i l2) := by
  rw [Bool.eq_iff_iff]
  simp only [iidMem, intersection, itemIn, List.any_eq_true, List.mem_filter,
    Bool.and_eq_true, beq_iff_eq]
  constructor
  · rintro ⟨a, ⟨ha1, b, hb, hba⟩, rfl⟩
    exact ⟨⟨a, ha1, rfl⟩, ⟨b, hb, hba⟩⟩
  · rintro ⟨⟨a, ha, rfl⟩, ⟨b, hb, hba⟩⟩
    exact ⟨a, ⟨ha, b, hb, hba⟩, rfl⟩

/-! ### Claim C10 -/

/-- Claim C10: `HighlightItemDelegate.clear` empties the
`target_model_indexes` and `target_focused_model_indexes` lists and
leaves `target_selected_model_indexes` unchanged, for every delegate
state. -/
theorem clear_frame_effect (d : HighlightItemDelegate) :
    d.clear.target_model_indexes = [] ∧
    d.clear.target_focused_model_indexes = [] ∧
    d.clear.target_selected_model_indexes = d.target_selected_model_indexes :=
  ⟨rfl, rfl, rfl⟩

/-! ### Claim C8: the depth-first traversal -/

theorem extractGo_mem (tl : List TNode) (x : Item) :
    x ∈ extractGo tl ↔ ∃ t ∈ tl, x = t.item ∨ x ∈ t.children := by
  induction tl with
  | nil => simp [extractGo]
  | cons t rest ih =>
    simp only [extractGo, List.mem_cons, List.mem_append, ih]
    constructor
    · rintro (rfl | h | ⟨u, hu, h⟩)
      · exact ⟨t, Or.inl rfl, Or.inl rfl⟩
      · exact ⟨t, Or.inl rfl, Or.inr h⟩
      · exact ⟨u, Or.inr hu, h⟩
    · rintro ⟨u, hu, h⟩
      rcases hu with rfl | hu'
      · rcases h with rfl | h
        · exact Or.inl rfl
        · exact Or.inr (Or.inl h)
      · exact Or.inr (Or.inr ⟨u, hu', h⟩)

theorem extractGo_length (tl : List TNode) :
    (extractGo tl).length = (tl.map (fun t => 1 + t.children.length)).sum := by
  induction tl with
  | nil => simp [extractGo]
  | cons t rest ih =>
    simp only [extractGo, List.length_cons, List.length_append, ih, List.map_cons,
      List.sum_cons]
    omega

theorem extractGo_parent_block (tl : List TNode) (t : TNode) (ht : t ∈ tl) :
    ∃ p s, extractGo tl = p ++ t.item :: (t.children ++ s) := by
  induction tl with
  | nil => cases ht
  | cons u rest ih =>
    rcases List.mem_cons.mp ht with rfl | h
    · exact ⟨[], extractGo rest, rfl⟩
    · obtain ⟨p, s, hp⟩ := ih h
      exact ⟨u.item :: (u.children ++ p), s, by simp [extractGo, hp]⟩

/-- Claim C8: `extract_all_items_from_tree` (the body of
`get_all_items`) yields exactly the nodes of the current tree — each node
of the tree is in the output, every output element is a node of the tree,
the output length is the total node count (so nothing is repeated or
added), and each top-level node appears immediately followed by its
children (depth-first, parent-before-children).  The function is pure, so
repeated calls trivially return the same list. -/
theorem get_all_items_dfs (tw : TreeWidget) :
    (∀ x, x ∈ extract_all_items_from_tree tw ↔
        ∃ t ∈ tw.topLevelItems, x = t.item ∨ x ∈ t.children) ∧
    (extract_all_items_from_tree tw).length =
        (tw.topLevelItems.map (fun t => 1 + t.children.length)).sum ∧
    ∀ t ∈ tw.topLevelItems,
      ∃ p s, extract_all_items_from_tree tw = p ++ t.item :: (t.children ++ s) :=
  ⟨fun x => extractGo_mem tw.topLevelItems x, extractGo_length tw.topLevelItems,
   fun t ht => extractGo_parent_block tw.topLevelItems t ht⟩

/-- Concrete instantiation of `get_all_items_dfs` on the grouped demo
tree: the NY group node is emitted immediately before its two child
rows. -/
theorem get_all_items_dfs_witness :
    ∃ p s, extract_all_items_from_tree demoGrouped =
      p ++ Item.mk 4 ["NY"] false :: ([rowAlice, rowBob] ++ s) :=
  (get_all_items_dfs demoGrouped).2.2 (TNode.mk (Item.mk 4 ["NY"] false) [rowAlice, rowBob])
    (by decide)

/-! ### Claim C5: negate complement -/

theorem mem_of_mem_intersection {l1 l2 : List Item} {a : Item}
    (h : a ∈ intersection l1 l2) : a ∈ l1 :=
  (List.mem_filter.mp h).1

theorem complement_parts (allAt mAt : List Item) (hsub : ∀ a ∈ mAt, a ∈ allAt) :
    (∀ i, iidMem i allAt =
        (iidMem i mAt || iidMem i (allAt.filter (fun a => !(itemIn a mAt))))) ∧
    (∀ i, (iidMem i mAt && iidMem i (allAt.filter (fun a => !(itemIn a mAt)))) = false) := by
  constructor
  · intro i
    rw [Bool.eq_iff_iff]
    simp only [Bool.or_eq_true]
    constructor
    · intro h
      obtain ⟨a, ha, hai⟩ := List.any_eq_true.mp h
      by_cases hmem : itemIn a mAt = true
      · left
        obtain ⟨b, hb, hba⟩ := List.any_eq_true.mp hmem
        refine List.any_eq_true.mpr ⟨b, hb, ?_⟩
        rw [beq_iff_eq] at hba hai ⊢
        omega
      · right
        have hfalse : itemIn a mAt = false := Bool.eq_false_iff.mpr hmem
        exact List.any_eq_true.mpr ⟨a, List.mem_filter.mpr ⟨ha, by rw [hfalse]; rfl⟩, hai⟩
    · rintro (h | h)
      · obtain ⟨b, hb, hbi⟩ := List.any_eq_true.mp h
        exact List.any_eq_true.mpr ⟨b, hsub b hb, hbi⟩
      · obtain ⟨b, hb, hbi⟩ := List.any_eq_true.mp h
        exact List.any_eq_true.mpr ⟨b, (List.mem_filter.mp hb).1, hbi⟩
  · intro i
    by_contra hcon
    rw [Bool.and_eq_false_iff] at hcon
    push_neg at hcon
    obtain ⟨h1, h2⟩ := hcon
    rw [Bool.ne_false_iff] at h1 h2
    obtain ⟨b, hb, hbi⟩ := List.any_eq_true.mp h2
    have hb2 := (List.mem_filter.mp hb).2
    have : itemIn b mAt = true := by
      rw [itemIn_eq_iidMem, beq_iff_eq.mp hbi]
      exact h1
    rw [this] at hb2
    cases hb2

/-- Claim C5: for a rule that resolves (known condition and column) and
its negated counterpart, the two result sets of `find_match_items` cover
exactly the candidate nodes at the scope child level determined for the
rule (level 1 when grouped, level 0 when flat), and they are disjoint
(as sets of node identities). -/
theorem find_matches_negate_complement (rm : Bool → String → String → Bool)
    (tw : TreeWidget) (cols : List String) (col condS kw : String) (cs : Bool)
    (cond : Condition) (idx : Nat)
    (hc : conditionOfString condS = some cond)
    (hi : cols.findIdx? (fun n => n == col) = some idx) :
    ∃ m m',
      find_match_items rm tw cols col condS kw false cs = .ok m ∧
      find_match_items rm tw cols col condS kw true cs = .ok m' ∧
      (∀ i, iidMem i (get_all_items_at_child_level tw
          (if tw.grouped_column_name != "" then 1 else 0)) = (iidMem i m || iidMem i m')) ∧
      (∀ i, (iidMem i m && iidMem i m') = false) := by
  have hm : find_match_items rm tw cols col condS kw false cs
      = .ok (intersection
          (get_all_items_at_child_level tw (if tw.grouped_column_name != "" then 1 else 0))
          (findItems rm tw kw cond cs (tw.grouped_column_name != "") idx)) := by
    unfold find_match_items
    rw [hc, hi]
    rfl
  have hm' : find_match_items rm tw cols col condS kw true cs
      = .ok ((get_all_items_at_child_level tw
            (if tw.grouped_column_name != "" then 1 else 0)).filter
          (fun a => !(itemIn a (intersection
            (get_all_items_at_child_level tw (if tw.grouped_column_name != "" then 1 else 0))
            (findItems rm tw kw cond cs (tw.grouped_column_name != "") idx))))) := by
    unfold find_match_items
    rw [hc, hi]
    rfl
  exact ⟨_, _, hm, hm',
    complement_parts _ _ (fun a ha => mem_of_mem_intersection ha)⟩

/-- Concrete instantiation of `find_matches_negate_complement` on the
grouped demo tree with the spec scenario rule (Name contains "a"). -/
theorem find_matches_negate_complement_witness :
    ∃ m m',
      find_match_items rmNone demoGrouped ["id", "Name", "City"] "Name" "contains" "a"
          false false = .ok m ∧
      find_match_items rmNone demoGrouped ["id", "Name", "City"] "Name" "contains" "a"
          true false = .ok m' ∧
      (∀ i, iidMem i (get_all_items_at_child_level demoGrouped
          (if demoGrouped.grouped_column_name != "" then 1 else 0)) =
            (iidMem i m || iidMem i m')) ∧
      (∀ i, (iidMem i m && iidMem i m') = false) :=
  find_matches_negate_complement rmNone demoGrouped ["id", "Name", "City"] "Name"
    "contains" "a" false Condition.contains 1 (by decide) (by decide)

/-! ### Closed form of the show-matching loop -/

theorem map_id_of_eta (l : List Item) :
    l.map (fun c => Item.mk c.iid c.texts c.hidden) = l := by
  induction l with
  | nil => rfl
  | cons c rest ih => simp [ih]

theorem showOneNode_eq (a : Item) (t : TNode) : showOneNode a t = applyShow [a] t := by
  obtain ⟨⟨i, tx, h⟩, ch⟩ := t
  simp only [showOneNode, applyShow, hitNode, hitChild, List.any_cons, List.any_nil,
    Bool.or_false]
  by_cases h1 : (i == a.iid) = true
  · simp [h1]
  · have h1' : (i == a.iid) = false := Bool.eq_false_iff.mpr h1
    by_cases h2 : ch.any (fun c => c.iid == a.iid) = true
    · simp [h1', h2]
      intro c _
      by_cases hc : c.iid = a.iid
      · simp [hc]
      · have hb : (c.iid == a.iid) = false := by simp [hc]
        rw [hb]
        cases c
        simp
        intro hx
        exact absurd hx hc
    · have h2' : ch.any (fun c => c.iid == a.iid) = false := Bool.eq_false_iff.mpr h2
      simp [h1', h2']
      rw [List.any_eq_false] at h2'
      rw [show ch.map (fun c => Item.mk c.iid c.texts (c.hidden && !(c.iid == a.iid)))
          = ch.map (fun c => Item.mk c.iid c.texts c.hidden) from ?_]
      · exact (map_id_of_eta ch).symm
      · apply List.map_congr_left
        intro c hcmem
        have hc : (c.iid == a.iid) = false := Bool.eq_false_iff.mpr (h2' c hcmem)
        rw [hc]
        simp only [Bool.not_false, Bool.and_true]

theorem applyShow_nil (t : TNode) : applyShow [] t = t := by
  obtain ⟨⟨i, tx, h⟩, ch⟩ := t
  simp [applyShow, hitNode, hitChild, map_id_of_eta]

theorem applyShow_comp (a : Item) (S : List Item) (t : TNode) :
    applyShow S (applyShow [a] t) = applyShow (a :: S) t := by
  obtain ⟨⟨i, tx, h⟩, ch⟩ := t
  simp [applyShow, hitNode, hitChild, List.map_map, Function.comp_def, List.any_map,
    Bool.not_or, Bool.and_assoc]

theorem foldl_showOneNode (S : List Item) (tl : List TNode) :
    S.foldl (fun tl a => tl.map (showOneNode a)) tl = tl.map (applyShow S) := by
  induction S generalizing tl with
  | nil =>
    rw [List.foldl_nil]
    have hid : applyShow ([] : List Item) = id := funext applyShow_nil
    rw [hid, List.map_id]
  | cons a S ih =>
    rw [List.foldl_cons, ih, List.map_map]
    apply List.map_congr_left
    intro t _
    show applyShow S (showOneNode a t) = applyShow (a :: S) t
    rw [showOneNode_eq, applyShow_comp]

theorem show_matching_items_closed (tw : TreeWidget) (S : List Item) :
    show_matching_items tw S
      = { tw with topLevelItems := tw.topLevelItems.map (applyShow S) } := by
  unfold show_matching_items
  rw [foldl_showOneNode]

/-! ### Claim C6: visibility propagation -/

/-- Claim C6: after applying visibility (hide everything, then show each
member of the visible set): every visible-set member that is a node of
the tree is shown, its parent group node is shown, and all of its own
children are shown; consequently any top-level node with at least one
visible child is itself visible. -/
theorem apply_visibility_spec (tw : TreeWidget) (S : List Item) :
    (∀ a ∈ S, ∀ t ∈ (apply_visibility tw S).topLevelItems,
        (t.item.iid = a.iid →
          t.item.hidden = false ∧ ∀ c ∈ t.children, c.hidden = false) ∧
        ((∃ c ∈ t.children, c.iid = a.iid) →
          t.item.hidden = false ∧ ∀ c ∈ t.children, c.iid = a.iid → c.hidden = false)) ∧
    (∀ t ∈ (apply_visibility tw S).topLevelItems,
        (∃ c ∈ t.children, c.hidden = false) → t.item.hidden = false) := by
  have hrep : (apply_visibility tw S).topLevelItems
      = (hideAllItems tw).topLevelItems.map (applyShow S) := by
    unfold apply_visibility
    rw [show_matching_items_closed]
  constructor
  · intro a ha t ht
    rw [hrep] at ht
    obtain ⟨u, hu, rfl⟩ := List.mem_map.mp ht
    have hitem : (applyShow S u).item.iid = u.item.iid := rfl
    constructor
    · intro hiid
      have hhit : hitNode S u = true := by
        refine List.any_eq_true.mpr ⟨a, ha, ?_⟩
        rw [hitem] at hiid
        simp [hiid]
      constructor
      · show (u.item.hidden && !(hitNode S u)) = false
        rw [hhit]
        simp
      · intro c hc
        obtain ⟨c0, hc0, rfl⟩ := List.mem_map.mp hc
        show (c0.hidden && !(hitChild S u c0)) = false
        have : hitChild S u c0 = true := by
          refine List.any_eq_true.mpr ⟨a, ha, ?_⟩
          rw [hitem] at hiid
          simp [hiid]
        rw [this]
        simp
    · rintro ⟨c, hc, hciid⟩
      obtain ⟨c0, hc0, rfl⟩ := List.mem_map.mp hc
      have hc0iid : c0.iid = a.iid := hciid
      have hhit : hitNode S u = true := by
        refine List.any_eq_true.mpr ⟨a, ha, ?_⟩
        have hcz : u.children.any (fun c => c.iid == a.iid) = true :=
          List.any_eq_true.mpr ⟨c0, hc0, by simp [hc0iid]⟩
        rw [hcz, Bool.or_true]
      constructor
      · show (u.item.hidden && !(hitNode S u)) = false
        rw [hhit]
        simp
      · intro c' hc' hciid'
        obtain ⟨c1, hc1, rfl⟩ := List.mem_map.mp hc'
        show (c1.hidden && !(hitChild S u c1)) = false
        have hhc : hitChild S u c1 = true := by
          refine List.any_eq_true.mpr ⟨a, ha, ?_⟩
          have hc1iid : (c1.iid == a.iid) = true := by
            have : c1.iid = a.iid := hciid'
            simp [this]
          rw [hc1iid, Bool.or_true]
        rw [hhc]
        simp
  · intro t ht hvis
    rw [hrep] at ht
    obtain ⟨u, hu, rfl⟩ := List.mem_map.mp ht
    obtain ⟨c, hc, hcvis⟩ := hvis
    obtain ⟨c0, hc0, rfl⟩ := List.mem_map.mp hc
    have hu2 : u ∈ tw.topLevelItems.map (fun t => TNode.mk { t.item with hidden := true }
        (t.children.map (fun c => { c with hidden := true }))) := hu
    obtain ⟨u', hu', rfl⟩ := List.mem_map.mp hu2
    have hc0hidden : c0.hidden = true := by
      obtain ⟨c1, _, rfl⟩ := List.mem_map.mp hc0
      rfl
    set u := TNode.mk ({ u'.item with hidden := true } : Item)
      (u'.children.map (fun c => ({ c with hidden := true } : Item))) with hudef
    have hcvis' : (c0.hidden && !(hitChild S u c0)) = false := hcvis
    rw [hc0hidden, Bool.true_and] at hcvis'
    have hchit : hitChild S u c0 = true := by
      revert hcvis'
      cases hitChild S u c0 <;> simp
    obtain ⟨a, ha, hpred⟩ := List.any_eq_true.mp hchit
    have hhit : hitNode S u = true := by
      refine List.any_eq_true.mpr ⟨a, ha, ?_⟩
      rcases Bool.or_eq_true_iff.mp hpred with hl | hr
      · rw [hl, Bool.true_or]
      · have hcz : u.children.any (fun c => c.iid == a.iid) = true :=
          List.any_eq_true.mpr ⟨c0, hc0, hr⟩
        rw [hcz, Bool.or_true]
    show (u.item.hidden && !(hitNode S u)) = false
    rw [hhit]
    simp

/-- Concrete instantiation of `apply_visibility_spec`: on the grouped demo
tree with visible set `[rowAlice]`, the NY group node of the result is
shown and its child with Alice's identity is shown. -/
theorem apply_visibility_spec_witness :
    (Item.mk 4 ["NY"] false).hidden = false ∧
    ∀ c ∈ [Item.mk 1 ["1", "Alice", "NY"] false, Item.mk 2 ["2", "Bob", "NY"] true],
      c.iid = rowAlice.iid → c.hidden = false :=
  ((apply_visibility_spec demoGrouped [rowAlice]).1 rowAlice (by decide)
    (TNode.mk (Item.mk 4 ["NY"] false)
      [Item.mk 1 ["1", "Alice", "NY"] false, Item.mk 2 ["2", "Bob", "NY"] true])
    (by decide)).2 ⟨Item.mk 1 ["1", "Alice", "NY"] false, by decide, rfl⟩

/-! ### Claim C3: filter intersection is order-independent and idempotent -/

theorem any_iid_congr (g : Nat → Bool) {S1 S2 : List Item}
    (h : ∀ i, iidMem i S1 = iidMem i S2) :
    S1.any (fun a => g a.iid) = S2.any (fun a => g a.iid) := by
  rw [Bool.eq_iff_iff]
  simp only [List.any_eq_true]
  constructor
  · rintro ⟨a, ha, hg⟩
    have h1 : iidMem a.iid S2 = true := by
      rw [← h a.iid]
      exact iidMem_of_mem ha
    obtain ⟨b, hb, hba⟩ := List.any_eq_true.mp h1
    exact ⟨b, hb, by rw [beq_iff_eq] at hba; rw [hba]; exact hg⟩
  · rintro ⟨a, ha, hg⟩
    have h1 : iidMem a.iid S1 = true := by
      rw [h a.iid]
      exact iidMem_of_mem ha
    obtain ⟨b, hb, hba⟩ := List.any_eq_true.mp h1
    exact ⟨b, hb, by rw [beq_iff_eq] at hba; rw [hba]; exact hg⟩

theorem applyShow_congr {S1 S2 : List Item} (h : ∀ i, iidMem i S1 = iidMem i S2)
    (t : TNode) : applyShow S1 t = applyShow S2 t := by
  unfold applyShow
  rw [show hitNode S1 t = hitNode S2 t from
    any_iid_congr (fun i => t.item.iid == i || t.children.any (fun c => c.iid == i)) h]
  congr 1
  apply List.map_congr_left
  intro c _
  rw [show hitChild S1 t c = hitChild S2 t c from
    any_iid_congr (fun i => t.item.iid == i || c.iid == i) h]

theorem show_matching_items_congr (tw : TreeWidget) {S1 S2 : List Item}
    (h : ∀ i, iidMem i S1 = iidMem i S2) :
    show_matching_items tw S1 = show_matching_items tw S2 := by
  rw [show_matching_items_closed, show_matching_items_closed]
  congr 1
  apply List.map_congr_left
  intro t _
  exact applyShow_congr h t

theorem find_match_items_of_error (rm : Bool → String → String → Bool)
    (tw : TreeWidget) (cols : List String) (c : FilterCriteria) (e : FilterError)
    (h : criterionError cols c = some e) :
    find_match_items rm tw cols c.column c.condition c.keyword c.is_negate
      c.is_case_sensitive = .error e := by
  unfold criterionError at h
  unfold find_match_items
  cases hc : conditionOfString c.condition with
  | none =>
    rw [hc] at h
    have h' : some FilterError.unknownCondition = some e := h
    injection h' with h'
    rw [← h']
  | some cond =>
    rw [hc] at h
    cases hi : cols.findIdx? (fun n => n == c.column) with
    | none =>
      rw [hi] at h
      have h' : some FilterError.unknownColumn = some e := h
      injection h' with h'
      rw [← h']
    | some idx =>
      rw [hi] at h
      have h' : (none : Option FilterError) = some e := h
      cases h'

theorem find_match_items_of_ok (rm : Bool → String → String → Bool)
    (tw : TreeWidget) (cols : List String) (c : FilterCriteria)
    (h : criterionError cols c = none) :
    ∃ m, find_match_items rm tw cols c.column c.condition c.keyword c.is_negate
      c.is_case_sensitive = .ok m := by
  unfold criterionError at h
  unfold find_match_items
  cases hc : conditionOfString c.condition with
  | none =>
    rw [hc] at h
    have h' : some FilterError.unknownCondition = (none : Option FilterError) := h
    cases h'
  | some cond =>
    rw [hc] at h
    cases hi : cols.findIdx? (fun n => n == c.column) with
    | none =>
      rw [hi] at h
      have h' : some FilterError.unknownColumn = (none : Option FilterError) := h
      cases h'
    | some idx =>
      exact ⟨_, rfl⟩

theorem applyFiltersGo_congr (rm : Bool → String → String → Bool) (tw : TreeWidget)
    (cols : List String) {r1 r2 : List Item} (cs : List FilterCriteria)
    (h : ∀ i, iidMem i r1 = iidMem i r2) :
    applyFiltersGo rm tw cols r1 cs = applyFiltersGo rm tw cols r2 cs := by
  induction cs generalizing r1 r2 with
  | nil =>
    unfold applyFiltersGo
    rw [show_matching_items_congr tw h]
  | cons c cs ih =>
    unfold applyFiltersGo
    cases hf : find_match_items rm tw cols c.column c.condition c.keyword c.is_negate
        c.is_case_sensitive with
    | error e => rfl
    | ok m =>
      apply ih
      intro i
      rw [iidMem_intersection, iidMem_intersection, h i]

theorem applyFiltersGo_err (rm : Bool → String → String → Bool) (tw : TreeWidget)
    (cols : List String) (r : List Item) (cs : List FilterCriteria)
    (h : ∃ c ∈ cs, criterionError cols c ≠ none) :
    ∃ e, applyFiltersGo rm tw cols r cs = (tw, some e) := by
  induction cs generalizing r with
  | nil =>
    obtain ⟨c, hc, _⟩ := h
    cases hc
  | cons c cs ih =>
    cases hce : criterionError cols c with
    | some e =>
      refine ⟨e, ?_⟩
      unfold applyFiltersGo
      rw [find_match_items_of_error rm tw cols c e hce]
    | none =>
      obtain ⟨c0, hc0, hbad⟩ := h
      obtain ⟨m, hm⟩ := find_match_items_of_ok rm tw cols c hce
      have hcs : ∃ c' ∈ cs, criterionError cols c' ≠ none := by
        rcases List.mem_cons.mp hc0 with rfl | h0
        · exact absurd hce hbad
        · exact ⟨c0, h0, hbad⟩
      obtain ⟨e, he⟩ := ih (intersection m r) hcs
      refine ⟨e, ?_⟩
      unfold applyFiltersGo
      rw [hm]
      exact he

theorem applyFiltersGo_ok (rm : Bool → String → String → Bool) (tw : TreeWidget)
    (cols : List String) (r : List Item) (cs : List FilterCriteria)
    (h : ∀ c ∈ cs, criterionError cols c = none) :
    ∃ L, applyFiltersGo rm tw cols r cs = (show_matching_items tw L, none) ∧
      ∀ i, iidMem i L
        = (iidMem i r && cs.all (fun c => iidMem i (matchList rm tw cols c))) := by
  induction cs generalizing r with
  | nil =>
    exact ⟨r, rfl, fun i => by simp⟩
  | cons c cs ih =>
    obtain ⟨m, hm⟩ := find_match_items_of_ok rm tw cols c (h c (List.mem_cons_self c cs))
    obtain ⟨L, hL, hLm⟩ := ih (intersection m r) (fun c' hc' => h c' (List.mem_cons_of_mem c hc'))
    refine ⟨L, ?_, fun i => ?_⟩
    · unfold applyFiltersGo
      rw [hm]
      exact hL
    · rw [hLm i, iidMem_intersection]
      have hml : matchList rm tw cols c = m := by
        unfold matchList
        rw [hm]
      rw [List.all_cons, hml]
      simp [Bool.and_comm, Bool.and_assoc, Bool.and_left_comm]

theorem applyFiltersGo_fst_shape (rm : Bool → String → String → Bool) (tw : TreeWidget)
    (cols : List String) (r : List Item) (cs : List FilterCriteria) :
    (applyFiltersGo rm tw cols r cs).1 = tw ∨
      ∃ L, (applyFiltersGo rm tw cols r cs).1 = show_matching_items tw L := by
  induction cs generalizing r with
  | nil => exact Or.inr ⟨r, rfl⟩
  | cons c cs ih =>
    unfold applyFiltersGo
    cases hf : find_match_items rm tw cols c.column c.condition c.keyword c.is_negate
        c.is_case_sensitive with
    | error e => exact Or.inl rfl
    | ok m => exact ih (intersection m r)

theorem perm_all_eq {α : Type} {l1 l2 : List α} (h : l1.Perm l2) (f : α → Bool) :
    l1.all f = l2.all f := by
  rw [Bool.eq_iff_iff]
  simp only [List.all_eq_true]
  exact ⟨fun hh a ha => hh a (h.mem_iff.mpr ha), fun hh a ha => hh a (h.mem_iff.mp ha)⟩

theorem hideAllItems_show_matching (tw : TreeWidget) (S : List Item) :
    hideAllItems (show_matching_items tw S) = hideAllItems tw := by
  rw [show_matching_items_closed]
  unfold hideAllItems
  simp only [List.map_map]
  congr 1
  apply List.map_congr_left
  intro t _
  obtain ⟨⟨i, tx, h⟩, ch⟩ := t
  simp [applyShow, Function.comp_def, List.map_map]

theorem hideAllItems_idem (tw : TreeWidget) :
    hideAllItems (hideAllItems tw) = hideAllItems tw := by
  unfold hideAllItems
  simp only [List.map_map]
  congr 1
  apply List.map_congr_left
  intro t _
  obtain ⟨⟨i, tx, h⟩, ch⟩ := t
  simp [Function.comp_def, List.map_map]

theorem extractGo_map_iid (f : TNode → TNode)
    (h1 : ∀ t, (f t).item.iid = t.item.iid)
    (h2 : ∀ t, (f t).children.map Item.iid = t.children.map Item.iid)
    (tl : List TNode) :
    (extractGo (tl.map f)).map Item.iid = (extractGo tl).map Item.iid := by
  induction tl with
  | nil => rfl
  | cons t rest ih =>
    show ((f t).item :: ((f t).children ++ extractGo (rest.map f))).map Item.iid
      = (t.item :: (t.children ++ extractGo rest)).map Item.iid
    simp only [List.map_cons, List.map_append]
    rw [h1 t, h2 t, ih]

theorem get_all_items_iid_hideAll (tw : TreeWidget) :
    (get_all_items (hideAllItems tw)).map Item.iid
      = (get_all_items tw).map Item.iid := by
  show (extractGo (tw.topLevelItems.map (fun t =>
      TNode.mk { t.item with hidden := true }
        (t.children.map (fun c => { c with hidden := true }))))).map Item.iid
    = (extractGo tw.topLevelItems).map Item.iid
  exact extractGo_map_iid (fun t =>
      TNode.mk { t.item with hidden := true }
        (t.children.map (fun c => { c with hidden := true })))
    (fun t => rfl)
    (fun t => by simp [List.map_map, Function.comp_def]) tw.topLevelItems

theorem get_all_items_iid_show (tw : TreeWidget) (S : List Item) :
    (get_all_items (show_matching_items tw S)).map Item.iid
      = (get_all_items tw).map Item.iid := by
  rw [show_matching_items_closed]
  show (extractGo (tw.topLevelItems.map (applyShow S))).map Item.iid
    = (extractGo tw.topLevelItems).map Item.iid
  exact extractGo_map_iid (applyShow S) (fun t => rfl)
    (fun t => by simp [applyShow, List.map_map, Function.comp_def]) tw.topLevelItems

theorem any_iid_eq_map_any (l : List Item) (i : Nat) :
    l.any (fun a => a.iid == i) = (l.map Item.iid).any (fun n => n == i) := by
  induction l with
  | nil => rfl
  | cons a rest ih => simp [ih]

theorem iidMem_congr_of_map_iid {l1 l2 : List Item}
    (h : l1.map Item.iid = l2.map Item.iid) (i : Nat) : iidMem i l1 = iidMem i l2 := by
  unfold iidMem
  rw [any_iid_eq_map_any, any_iid_eq_map_any, h]

/-- Claim C3: the visibility state computed by `_apply_filters` is the
same for every permutation of the stored rule list, and recomputing on
the resulting tree with the same rules reproduces the same result
(idempotence). -/
theorem apply_filters_perm_idem (rm : Bool → String → String → Bool)
    (tw : TreeWidget) (cols : List String) (cs cs' : List FilterCriteria)
    (hperm : cs.Perm cs') :
    (apply_filters rm tw cols cs).1 = (apply_filters rm tw cols cs').1 ∧
    apply_filters rm (apply_filters rm tw cols cs).1 cols cs
      = apply_filters rm tw cols cs := by
  constructor
  · show (applyFiltersGo rm (hideAllItems tw) cols (get_all_items tw) cs).1
      = (applyFiltersGo rm (hideAllItems tw) cols (get_all_items tw) cs').1
    by_cases hbad : ∃ c ∈ cs, criterionError cols c ≠ none
    · obtain ⟨e, he⟩ :=
        applyFiltersGo_err rm (hideAllItems tw) cols (get_all_items tw) cs hbad
      obtain ⟨e', he'⟩ :=
        applyFiltersGo_err rm (hideAllItems tw) cols (get_all_items tw) cs'
          (by
            obtain ⟨c, hc, hb⟩ := hbad
            exact ⟨c, hperm.mem_iff.mp hc, hb⟩)
      rw [he, he']
    · push_neg at hbad
      have hok : ∀ c ∈ cs, criterionError cols c = none := hbad
      have hok' : ∀ c ∈ cs', criterionError cols c = none := fun c hc =>
        hok c (hperm.mem_iff.mpr hc)
      obtain ⟨L, hL, hLm⟩ :=
        applyFiltersGo_ok rm (hideAllItems tw) cols (get_all_items tw) cs hok
      obtain ⟨L', hL', hL'm⟩ :=
        applyFiltersGo_ok rm (hideAllItems tw) cols (get_all_items tw) cs' hok'
      rw [hL, hL']
      show show_matching_items (hideAllItems tw) L
        = show_matching_items (hideAllItems tw) L'
      apply show_matching_items_congr
      intro i
      rw [hLm i, hL'm i,
        perm_all_eq hperm (fun c => iidMem i (matchList rm (hideAllItems tw) cols c))]
  · have hshape := applyFiltersGo_fst_shape rm (hideAllItems tw) cols (get_all_items tw) cs
    have hhide : hideAllItems (apply_filters rm tw cols cs).1 = hideAllItems tw := by
      show hideAllItems (applyFiltersGo rm (hideAllItems tw) cols (get_all_items tw) cs).1
        = hideAllItems tw
      rcases hshape with h | ⟨L, h⟩
      · rw [h, hideAllItems_idem]
      · rw [h, hideAllItems_show_matching, hideAllItems_idem]
    have hiid : ∀ i, iidMem i (get_all_items (apply_filters rm tw cols cs).1)
        = iidMem i (get_all_items tw) := by
      intro i
      apply iidMem_congr_of_map_iid
      show (get_all_items (applyFiltersGo rm (hideAllItems tw) cols
          (get_all_items tw) cs).1).map Item.iid = (get_all_items tw).map Item.iid
      rcases hshape with h | ⟨L, h⟩
      · rw [h, get_all_items_iid_hideAll]
      · rw [h, get_all_items_iid_show, get_all_items_iid_hideAll]
    show applyFiltersGo rm (hideAllItems (apply_filters rm tw cols cs).1) cols
        (get_all_items (apply_filters rm tw cols cs).1) cs
      = applyFiltersGo rm (hideAllItems tw) cols (get_all_items tw) cs
    rw [hhide]
    exact applyFiltersGo_congr rm (hideAllItems tw) cols cs hiid

/-- Concrete instantiation of `apply_filters_perm_idem`: the spec-scenario
rule plus a City rule give the same visibility in both orders, and
re-filtering the filtered demo tree changes nothing. -/
theorem apply_filters_perm_idem_witness :
    (apply_filters rmNone demoGrouped ["id", "Name", "City"]
        [FilterCriteria.mk "Name" "contains" "a" false false,
         FilterCriteria.mk "City" "contains" "NY" false false]).1
      = (apply_filters rmNone demoGrouped ["id", "Name", "City"]
        [FilterCriteria.mk "City" "contains" "NY" false false,
         FilterCriteria.mk "Name" "contains" "a" false false]).1 ∧
    apply_filters rmNone (apply_filters rmNone demoGrouped ["id", "Name", "City"]
        [FilterCriteria.mk "Name" "contains" "a" false false,
         FilterCriteria.mk "City" "contains" "NY" false false]).1 ["id", "Name", "City"]
        [FilterCriteria.mk "Name" "contains" "a" false false,
         FilterCriteria.mk "City" "contains" "NY" false false]
      = apply_filters rmNone demoGrouped ["id", "Name", "City"]
        [FilterCriteria.mk "Name" "contains" "a" false false,
         FilterCriteria.mk "City" "contains" "NY" false false] :=
  apply_filters_perm_idem rmNone demoGrouped ["id", "Name", "City"]
    [FilterCriteria.mk "Name" "contains" "a" false false,
     FilterCriteria.mk "City" "contains" "NY" false false]
    [FilterCriteria.mk "City" "contains" "NY" false false,
     FilterCriteria.mk "Name" "contains" "a" false false]
    (List.Perm.swap _ _ _)

/-! ### Grouping: structure of `_create_item_groups` -/

theorem addToGroups_cons_ne (g : String × List Item) (gs : List (String × List Item))
    (key : String) (a : Item) (hne : (g.1 == key) = false) :
    addToGroups (g :: gs) key a = g :: addToGroups gs key a := by
  unfold addToGroups
  rw [List.any_cons, hne, Bool.false_or]
  cases hany : gs.any (fun g => g.1 == key) with
  | true =>
    simp [hne]
    intro hk
    exact absurd hk (beq_eq_false_iff_ne.mp hne)
  | false => simp

theorem addToGroups_keys (gs : List (String × List Item)) (key : String) (a : Item) :
    (addToGroups gs key a).map Prod.fst =
      if gs.any (fun g => g.1 == key) then gs.map Prod.fst
      else gs.map Prod.fst ++ [key] := by
  unfold addToGroups
  cases h : gs.any (fun g => g.1 == key) with
  | true =>
    simp only [if_true]
    rw [List.map_map]
    apply List.map_congr_left
    intro g _
    by_cases hg : g.1 = key
    · simp [hg]
    · simp [hg]
  | false => simp

theorem addToGroups_keys_nodup (gs : List (String × List Item)) (key : String) (a : Item)
    (h : (gs.map Prod.fst).Nodup) :
    ((addToGroups gs key a).map Prod.fst).Nodup := by
  rw [addToGroups_keys]
  cases hany : gs.any (fun g => g.1 == key) with
  | true => simpa using h
  | false =>
    have hnot : key ∉ gs.map Prod.fst := by
      intro hk
      obtain ⟨g, hg, hgk⟩ := List.mem_map.mp hk
      rw [List.any_eq_false] at hany
      exact hany g hg (by simp [hgk])
    rw [if_neg (by simp [hany])]
    rw [List.nodup_append]
    exact ⟨h, List.nodup_singleton key, by
      intro x hx hx2
      rw [List.mem_singleton] at hx2
      exact hnot (hx2 ▸ hx)⟩
  -- NOTE: the if-branches above are selected by `hany`

theorem addToGroups_join_perm (gs : List (String × List Item)) (key : String) (a : Item)
    (h : (gs.map Prod.fst).Nodup) :
    ((addToGroups gs key a).map (fun g => g.2)).flatten.Perm
      (((gs.map (fun g => g.2)).flatten) ++ [a]) := by
  induction gs with
  | nil => simp [addToGroups]
  | cons g gs ih =>
    rw [List.map_cons, List.nodup_cons] at h
    by_cases hg : (g.1 == key) = true
    · have hkey : g.1 = key := beq_iff_eq.mp hg
      have hstep : addToGroups (g :: gs) key a = (g.1, g.2 ++ [a]) :: gs := by
        unfold addToGroups
        rw [List.any_cons, hg, Bool.true_or, if_pos rfl, List.map_cons, if_pos hg]
        congr 1
        have hpt : ∀ x ∈ gs,
            (if (x.1 == key) = true then (x.1, x.2 ++ [a]) else x) = id x := by
          intro x hx
          have hxk : (x.1 == key) = false := by
            rw [beq_eq_false_iff_ne]
            intro hxe
            exact h.1 (List.mem_map.mpr ⟨x, hx, by rw [hxe, hkey]⟩)
          rw [if_neg (by simp [hxk])]
          rfl
        rw [List.map_congr_left hpt, List.map_id]
      rw [hstep]
      simp only [List.map_cons, List.flatten_cons]
      rw [List.append_assoc, List.append_assoc]
      exact List.Perm.append_left g.2 List.perm_append_comm
    · have hgf : (g.1 == key) = false := Bool.eq_false_iff.mpr hg
      rw [addToGroups_cons_ne g gs key a hgf]
      simp only [List.map_cons, List.flatten_cons]
      rw [List.append_assoc]
      exact List.Perm.append_left g.2 (ih h.2)

theorem createItemGroups_fold_keys_nodup (pairs : List (String × Item))
    (acc : List (String × List Item)) (h : (acc.map Prod.fst).Nodup) :
    ((pairs.foldl (fun groups p => addToGroups groups (keyOf p.1) p.2) acc).map
        Prod.fst).Nodup := by
  induction pairs generalizing acc with
  | nil => exact h
  | cons q pairs ih => exact ih _ (addToGroups_keys_nodup _ _ _ h)

theorem createItemGroups_keys_nodup (pairs : List (String × Item)) :
    ((createItemGroups pairs).map Prod.fst).Nodup :=
  createItemGroups_fold_keys_nodup pairs [] (by simp)

theorem createItemGroups_fold_join_perm (pairs : List (String × Item))
    (acc : List (String × List Item)) (h : (acc.map Prod.fst).Nodup) :
    ((pairs.foldl (fun groups p => addToGroups groups (keyOf p.1) p.2) acc).map
        (fun g => g.2)).flatten.Perm
      ((acc.map (fun g => g.2)).flatten ++ pairs.map Prod.snd) := by
  induction pairs generalizing acc with
  | nil => simp
  | cons q pairs ih =>
    have h1 := addToGroups_join_perm acc (keyOf q.1) q.2 h
    have h2 := ih (addToGroups acc (keyOf q.1) q.2) (addToGroups_keys_nodup _ _ _ h)
    refine h2.trans ?_
    refine (List.Perm.append_right (pairs.map Prod.snd) h1).trans ?_
    rw [List.append_assoc]
    exact List.Perm.refl _

theorem createItemGroups_join_perm (pairs : List (String × Item)) :
    ((createItemGroups pairs).map (fun g => g.2)).flatten.Perm (pairs.map Prod.snd) := by
  have h := createItemGroups_fold_join_perm pairs [] (by simp)
  simpa using h

theorem createItemGroups_sub (pairs : List (String × Item)) (g : String × List Item)
    (hg : g ∈ createItemGroups pairs) (a : Item) (ha : a ∈ g.2) :
    a ∈ pairs.map Prod.snd := by
  have hj : a ∈ ((createItemGroups pairs).map (fun g => g.2)).flatten :=
    List.mem_flatten.mpr ⟨g.2, List.mem_map.mpr ⟨g, hg, rfl⟩, ha⟩
  exact (createItemGroups_join_perm pairs).mem_iff.mp hj

theorem addToGroups_self (gs : List (String × List Item)) (key : String) (a : Item) :
    ∃ ms, (key, ms) ∈ addToGroups gs key a ∧ a ∈ ms := by
  unfold addToGroups
  cases h : gs.any (fun g => g.1 == key) with
  | true =>
    obtain ⟨g, hg, hk⟩ := List.any_eq_true.mp h
    refine ⟨g.2 ++ [a], ?_, by simp⟩
    refine List.mem_map.mpr ⟨g, hg, ?_⟩
    rw [if_pos hk, beq_iff_eq.mp hk]
  | false =>
    exact ⟨[a], by simp, by simp⟩

theorem addToGroups_mono (gs : List (String × List Item)) (key : String) (a : Item)
    (k : String) (ms : List Item) (x : Item) (hm : (k, ms) ∈ gs) (hx : x ∈ ms) :
    ∃ ms2, (k, ms2) ∈ addToGroups gs key a ∧ x ∈ ms2 := by
  unfold addToGroups
  cases h : gs.any (fun g => g.1 == key) with
  | true =>
    by_cases hkk : (((k, ms) : String × List Item).1 == key) = true
    · exact ⟨ms ++ [a], List.mem_map.mpr ⟨(k, ms), hm, by rw [if_pos hkk]⟩,
        List.mem_append.mpr (Or.inl hx)⟩
    · exact ⟨ms, List.mem_map.mpr ⟨(k, ms), hm, by rw [if_neg hkk]⟩, hx⟩
  | false => exact ⟨ms, List.mem_append.mpr (Or.inl hm), hx⟩

theorem createItemGroups_fold_mono (pairs : List (String × Item))
    (acc : List (String × List Item)) (k : String) (ms : List Item) (x : Item)
    (hm : (k, ms) ∈ acc) (hx : x ∈ ms) :
    ∃ ms2, (k, ms2) ∈ pairs.foldl (fun groups p => addToGroups groups (keyOf p.1) p.2) acc
      ∧ x ∈ ms2 := by
  induction pairs generalizing acc ms with
  | nil => exact ⟨ms, hm, hx⟩
  | cons q pairs ih =>
    obtain ⟨ms2, hm2, hx2⟩ := addToGroups_mono acc (keyOf q.1) q.2 k ms x hm hx
    exact ih _ ms2 hm2 hx2

theorem createItemGroups_mem_fold (pairs : List (String × Item))
    (acc : List (String × List Item)) (p : String × Item) (hp : p ∈ pairs) :
    ∃ ms, (keyOf p.1, ms) ∈ pairs.foldl
        (fun groups p => addToGroups groups (keyOf p.1) p.2) acc
      ∧ p.2 ∈ ms := by
  induction pairs generalizing acc with
  | nil => cases hp
  | cons q pairs ih =>
    rcases List.mem_cons.mp hp with rfl | hp2
    · obtain ⟨ms, hm, hx⟩ := addToGroups_self acc (keyOf p.1) p.2
      exact createItemGroups_fold_mono pairs _ (keyOf p.1) ms p.2 hm hx
    · exact ih _ hp2

theorem createItemGroups_mem (pairs : List (String × Item)) (p : String × Item)
    (hp : p ∈ pairs) :
    ∃ ms, (keyOf p.1, ms) ∈ createItemGroups pairs ∧ p.2 ∈ ms :=
  createItemGroups_mem_fold pairs [] p hp

/-! ### Grouping: the reparenting loop and its inverse -/

theorem buildGroups_cons (g : String × List Item) (gs : List (String × List Item))
    (n : Nat) :
    buildGroups (g :: gs) n = TNode.mk (mkGroupItem n g.1) g.2 :: buildGroups gs (n + 1) :=
  rfl

theorem buildGroups_iid_ge (gs : List (String × List Item)) (n : Nat) :
    ∀ t ∈ buildGroups gs n, n ≤ t.item.iid := by
  induction gs generalizing n with
  | nil => simp [buildGroups]
  | cons g gs ih =>
    intro t ht
    rcases List.mem_cons.mp ht with rfl | ht2
    · exact Nat.le_refl n
    · exact Nat.le_trans (Nat.le_succ n) (ih (n + 1) t ht2)

theorem groupFold_eq (gs : List (String × List Item)) (tl : List TNode) (n0 : Nat)
    (htl : ∀ t ∈ tl, t.item.iid < n0)
    (hgs : ∀ g ∈ gs, ∀ a ∈ g.2, a.iid < n0) :
    gs.foldl groupStep (tl, n0)
      = (tl.filter (fun t => !(gs.any (fun g => itemIn t.item g.2))) ++ buildGroups gs n0,
         n0 + gs.length) := by
  induction gs generalizing tl n0 with
  | nil => simp [buildGroups]
  | cons g gs ih =>
    rw [List.foldl_cons]
    have hstep : groupStep (tl, n0) g
        = (tl.filter (fun t => !(itemIn t.item g.2))
            ++ [TNode.mk (mkGroupItem n0 g.1) g.2], n0 + 1) := rfl
    rw [hstep]
    have htl2 : ∀ t ∈ tl.filter (fun t => !(itemIn t.item g.2))
        ++ [TNode.mk (mkGroupItem n0 g.1) g.2], t.item.iid < n0 + 1 := by
      intro t ht
      rcases List.mem_append.mp ht with h1 | h1
      · exact Nat.lt_trans (htl t (List.mem_of_mem_filter h1)) (Nat.lt_succ_self n0)
      · rw [List.mem_singleton] at h1
        rw [h1]
        exact Nat.lt_succ_self n0
    have hgs2 : ∀ g' ∈ gs, ∀ a ∈ g'.2, a.iid < n0 + 1 := fun g' hg' a ha =>
      Nat.lt_trans (hgs g' (List.mem_cons_of_mem g hg') a ha) (Nat.lt_succ_self n0)
    rw [ih _ _ htl2 hgs2]
    have hnode : ∀ g' ∈ gs,
        itemIn (TNode.mk (mkGroupItem n0 g.1) g.2).item g'.2 = false := by
      intro g' hg'
      rw [itemIn]
      rw [List.any_eq_false]
      intro b hb
      have hlt : b.iid < n0 := hgs g' (List.mem_cons_of_mem g hg') b hb
      simp only [beq_iff_eq, mkGroupItem]
      omega
    have hfilters : (tl.filter (fun t => !(itemIn t.item g.2))
          ++ [TNode.mk (mkGroupItem n0 g.1) g.2]).filter
            (fun t => !(gs.any (fun g => itemIn t.item g.2)))
        = tl.filter (fun t => !((g :: gs).any (fun g => itemIn t.item g.2)))
          ++ [TNode.mk (mkGroupItem n0 g.1) g.2] := by
      rw [List.filter_append]
      congr 1
      · rw [List.filter_filter]
        apply List.filter_congr
        intro t _
        rw [List.any_cons, Bool.not_or, Bool.and_comm]
      · rw [List.filter_eq_self]
        intro t ht
        rw [List.mem_singleton] at ht
        subst ht
        have hany : gs.any
            (fun g' => itemIn (TNode.mk (mkGroupItem n0 g.1) g.2).item g'.2) = false := by
          rw [List.any_eq_false]
          intro g' hg'
          rw [hnode g' hg']
          simp
        rw [hany]
        rfl
    rw [hfilters, buildGroups_cons, List.append_assoc]
    refine Prod.ext ?_ ?_
    · rfl
    · show (n0 + 1) + gs.length = n0 + (g :: gs).length
      rw [List.length_cons]
      omega

theorem grouped_topLevel (tw : TreeWidget) (col : Nat)
    (hflat : tw.grouped_column_name = "") (hb : iidBound tw) :
    (group_by_column tw col).topLevelItems
      = buildGroups (createItemGroups (tw.topLevelItems.map
          (fun t => (t.item.text col, t.item)))) tw.nextIid ∧
    (group_by_column tw col).grouped_column_name = tw.headerLabels.getD col "" ∧
    (group_by_column tw col).nextIid
      = tw.nextIid + (createItemGroups (tw.topLevelItems.map
          (fun t => (t.item.text col, t.item)))).length := by
  have hug : ungroup_all tw = tw := by
    unfold ungroup_all
    rw [if_pos hflat]
  have hsnd : (tw.topLevelItems.map (fun t => (t.item.text col, t.item))).map Prod.snd
      = tw.topLevelItems.map (fun t => t.item) := by
    rw [List.map_map]
    rfl
  have hbound : ∀ g ∈ createItemGroups (tw.topLevelItems.map
      (fun t => (t.item.text col, t.item))), ∀ a ∈ g.2, a.iid < tw.nextIid := by
    intro g hg a ha
    have hmem := createItemGroups_sub _ g hg a ha
    rw [hsnd] at hmem
    obtain ⟨t, ht, rfl⟩ := List.mem_map.mp hmem
    exact (hb t ht).1
  have hfold := groupFold_eq
    (createItemGroups (tw.topLevelItems.map (fun t => (t.item.text col, t.item))))
    tw.topLevelItems tw.nextIid (fun t ht => (hb t ht).1) hbound
  have hfilter : tw.topLevelItems.filter (fun t =>
      !((createItemGroups (tw.topLevelItems.map (fun t => (t.item.text col, t.item)))).any
        (fun g => itemIn t.item g.2))) = [] := by
    rw [List.filter_eq_nil_iff]
    intro t ht
    obtain ⟨ms, hms, hxm⟩ := createItemGroups_mem
      (tw.topLevelItems.map (fun t => (t.item.text col, t.item)))
      (t.item.text col, t.item) (List.mem_map.mpr ⟨t, ht, rfl⟩)
    have hany : (createItemGroups (tw.topLevelItems.map
        (fun t => (t.item.text col, t.item)))).any (fun g => itemIn t.item g.2) = true :=
      List.any_eq_true.mpr ⟨(keyOf (t.item.text col), ms), hms, itemIn_of_mem hxm⟩
    rw [hany]
    simp
  refine ⟨?_, ?_, ?_⟩
  · show ((createItemGroups (((ungroup_all tw).topLevelItems.map
        (fun t => t.item.text col)).zip
        ((ungroup_all tw).topLevelItems.map (fun t => t.item)))).foldl groupStep
        ((ungroup_all tw).topLevelItems, (ungroup_all tw).nextIid)).1
      = buildGroups (createItemGroups (tw.topLevelItems.map
          (fun t => (t.item.text col, t.item)))) tw.nextIid
    rw [hug, List.zip_map', hfold]
    show tw.topLevelItems.filter _ ++ _ = _
    rw [hfilter, List.nil_append]
  · show (ungroup_all tw).headerLabels.getD col "" = tw.headerLabels.getD col ""
    rw [hug]
  · show ((createItemGroups (((ungroup_all tw).topLevelItems.map
        (fun t => t.item.text col)).zip
        ((ungroup_all tw).topLevelItems.map (fun t => t.item)))).foldl groupStep
        ((ungroup_all tw).topLevelItems, (ungroup_all tw).nextIid)).2
      = tw.nextIid + (createItemGroups (tw.topLevelItems.map
          (fun t => (t.item.text col, t.item)))).length
    rw [hug, List.zip_map', hfold]

theorem ungroupFold_eq (gs : List (String × List Item)) (n0 : Nat) (rows : List TNode)
    (hgs : ∀ g ∈ gs, ∀ a ∈ g.2, a.iid < n0)
    (hrows : ∀ r ∈ rows, r.item.iid < n0) :
    (buildGroups gs n0).foldl ungroupStep (buildGroups gs n0 ++ rows)
      = rows ++ ((gs.map (fun g => g.2)).flatten).map (fun c => TNode.mk c []) := by
  induction gs generalizing n0 rows with
  | nil => simp [buildGroups]
  | cons g gs ih =>
    rw [buildGroups_cons, List.foldl_cons]
    have hstep : ungroupStep ((TNode.mk (mkGroupItem n0 g.1) g.2 :: buildGroups gs (n0 + 1))
          ++ rows) (TNode.mk (mkGroupItem n0 g.1) g.2)
        = buildGroups gs (n0 + 1) ++ (rows ++ g.2.map (fun c => TNode.mk c [])) := by
      unfold ungroupStep
      rw [List.cons_append,
        List.filter_cons_of_neg (by simp [mkGroupItem]),
        List.filter_append]
      have h1 : (buildGroups gs (n0 + 1)).filter
          (fun t => t.item.iid != (TNode.mk (mkGroupItem n0 g.1) g.2).item.iid)
          = buildGroups gs (n0 + 1) := by
        rw [List.filter_eq_self]
        intro t ht
        have hge := buildGroups_iid_ge gs (n0 + 1) t ht
        simp only [bne_iff_ne, ne_eq, mkGroupItem]
        omega
      have h2 : rows.filter
          (fun t => t.item.iid != (TNode.mk (mkGroupItem n0 g.1) g.2).item.iid)
          = rows := by
        rw [List.filter_eq_self]
        intro t ht
        have hlt := hrows t ht
        simp only [bne_iff_ne, ne_eq, mkGroupItem]
        omega
      rw [h1, h2, List.append_assoc]
    rw [hstep]
    have hgs2 : ∀ g' ∈ gs, ∀ a ∈ g'.2, a.iid < n0 + 1 := fun g' hg' a ha =>
      Nat.lt_trans (hgs g' (List.mem_cons_of_mem g hg') a ha) (Nat.lt_succ_self n0)
    have hrows2 : ∀ r ∈ rows ++ g.2.map (fun c => TNode.mk c []), r.item.iid < n0 + 1 := by
      intro r hr
      rcases List.mem_append.mp hr with h1 | h1
      · exact Nat.lt_trans (hrows r h1) (Nat.lt_succ_self n0)
      · obtain ⟨c, hc, rfl⟩ := List.mem_map.mp h1
        exact Nat.lt_trans (hgs g (List.mem_cons_self g gs) c hc) (Nat.lt_succ_self n0)
    rw [ih (n0 + 1) (rows ++ g.2.map (fun c => TNode.mk c [])) hgs2 hrows2]
    rw [List.map_cons, List.flatten_cons, List.map_append, List.append_assoc]

theorem createItemGroups_pairs_bound (tw : TreeWidget) (col : Nat) (hb : iidBound tw) :
    ∀ g ∈ createItemGroups (tw.topLevelItems.map (fun t => (t.item.text col, t.item))),
      ∀ a ∈ g.2, a.iid < tw.nextIid := by
  intro g hg a ha
  have hmem := createItemGroups_sub _ g hg a ha
  rw [List.map_map] at hmem
  obtain ⟨t, ht, rfl⟩ := List.mem_map.mp hmem
  exact (hb t ht).1

theorem mem_buildGroups (gs : List (String × List Item)) (n : Nat) (t : TNode)
    (ht : t ∈ buildGroups gs n) :
    ∃ g ∈ gs, t.item.texts = [g.1] ∧ t.children = g.2 := by
  induction gs generalizing n with
  | nil => cases ht
  | cons g0 gs ih =>
    rcases List.mem_cons.mp ht with rfl | h2
    · exact ⟨g0, List.mem_cons_self g0 gs, rfl, rfl⟩
    · obtain ⟨g', hg', h3⟩ := ih (n + 1) h2
      exact ⟨g', List.mem_cons_of_mem g0 hg', h3⟩

theorem mem_buildGroups_of_mem (gs : List (String × List Item)) (n : Nat)
    (g : String × List Item) (hg : g ∈ gs) :
    ∃ t ∈ buildGroups gs n, t.item.texts = [g.1] ∧ t.children = g.2 := by
  induction gs generalizing n with
  | nil => cases hg
  | cons g0 gs ih =>
    rcases List.mem_cons.mp hg with rfl | h2
    · exact ⟨TNode.mk (mkGroupItem n g.1) g.2, List.mem_cons_self _ _, rfl, rfl⟩
    · obtain ⟨t, ht, h3, h4⟩ := ih (n + 1) h2
      exact ⟨t, List.mem_cons_of_mem _ ht, h3, h4⟩

theorem buildGroups_filter_key_le_one (gs : List (String × List Item)) (n : Nat)
    (k : String) (hnd : (gs.map Prod.fst).Nodup) :
    ((buildGroups gs n).filter (fun t => t.item.text 0 == k)).length ≤ 1 := by
  induction gs generalizing n with
  | nil => simp [buildGroups]
  | cons g gs ih =>
    rw [buildGroups_cons, List.filter_cons]
    rw [List.map_cons, List.nodup_cons] at hnd
    by_cases hk : ((TNode.mk (mkGroupItem n g.1) g.2).item.text 0 == k) = true
    · rw [if_pos hk]
      have hgk : g.1 = k := by
        have := beq_iff_eq.mp hk
        simpa [mkGroupItem, Item.text] using this
      have htail : (buildGroups gs (n + 1)).filter (fun t => t.item.text 0 == k) = [] := by
        rw [List.filter_eq_nil_iff]
        intro t ht
        obtain ⟨g', hg', htex, _⟩ := mem_buildGroups gs (n + 1) t ht
        have htx : t.item.text 0 = g'.1 := by
          rw [Item.text, htex]
          rfl
        rw [htx]
        intro hcon
        have : g'.1 = k := beq_iff_eq.mp hcon
        exact hnd.1 (List.mem_map.mpr ⟨g', hg', by rw [this, hgk]⟩)
      rw [htail]
      simp
    · rw [if_neg hk]
      exact ih (n + 1) hnd.2

/-! ### Claim C4: the catch-all bucket -/

/-- Claim C4: grouping a flat row set by any column produces at most one
top-level node whose group key (the text in column 0) is the `"_others"`
sentinel, and every row whose value in the grouping column is the empty
(falsy) string becomes a child of a group node with key `"_others"`. -/
theorem catch_all_bucket (tw : TreeWidget) (col : Nat)
    (hflat : tw.grouped_column_name = "") (hb : iidBound tw) :
    ((group_by_column tw col).topLevelItems.filter
        (fun t => t.item.text 0 == "_others")).length ≤ 1 ∧
    ∀ t ∈ tw.topLevelItems, t.item.text col = "" →
      ∃ g ∈ (group_by_column tw col).topLevelItems,
        g.item.text 0 = "_others" ∧ itemIn t.item g.children = true := by
  obtain ⟨htop, _, _⟩ := grouped_topLevel tw col hflat hb
  constructor
  · rw [htop]
    exact buildGroups_filter_key_le_one _ _ _
      (createItemGroups_keys_nodup (tw.topLevelItems.map
        (fun t => (t.item.text col, t.item))))
  · intro t ht hempty
    obtain ⟨ms, hms, hxm⟩ := createItemGroups_mem
      (tw.topLevelItems.map (fun u => (u.item.text col, u.item)))
      (t.item.text col, t.item) (List.mem_map.mpr ⟨t, ht, rfl⟩)
    have hkey : keyOf (t.item.text col) = "_others" := by
      rw [keyOf, if_pos hempty]
    rw [hkey] at hms
    obtain ⟨gnode, hgnode, htex, hch⟩ := mem_buildGroups_of_mem _ tw.nextIid
      ("_others", ms) hms
    refine ⟨gnode, by rw [htop]; exact hgnode, ?_, ?_⟩
    · rw [Item.text, htex]
      rfl
    · rw [hch]
      exact itemIn_of_mem hxm

/-- Concrete instantiation of `catch_all_bucket` on a flat tree with two
empty-city rows: at most one catch-all group, and Alice's row (empty
city) is a child of a `"_others"` group node. -/
theorem catch_all_bucket_witness :
    ((group_by_column demoEmptyCity 2).topLevelItems.filter
        (fun t => t.item.text 0 == "_others")).length ≤ 1 ∧
    ∃ g ∈ (group_by_column demoEmptyCity 2).topLevelItems,
      g.item.text 0 = "_others" ∧
        itemIn (Item.mk 1 ["1", "Alice", ""] false) g.children = true :=
  ⟨(catch_all_bucket demoEmptyCity 2 rfl (by unfold iidBound; decide)).1,
   (catch_all_bucket demoEmptyCity 2 rfl (by unfold iidBound; decide)).2
    (TNode.mk (Item.mk 1 ["1", "Alice", ""] false) []) (by decide) (by decide)⟩

/-! ### Claim C1: the group/ungroup round trip -/

/-- Counterexample to C1 as stated: on a flat tree whose grouping-column
values interleave (NY, LA, NY), grouping by City and ungrouping returns
the rows in group-by-group order [1, 2, 3], not the original top-level
order [1, 3, 2] — the top-level order is NOT preserved. -/
theorem roundtrip_order_counterexample :
    ((ungroup_all (group_by_column demoInterleaved 2)).topLevelItems.map
        (fun t => t.item.iid))
      ≠ demoInterleaved.topLevelItems.map (fun t => t.item.iid) := by
  decide

/-- Claim C1 (amended): for a flat tree and a grouping column whose header
label is non-empty, `ungroup_all (group_by_column c)` conserves the
multiset of row identities (and for the empty row set trivially so), and
returns the projection to the flat state; the top-level order is the
group-by-group concatenation, which need not equal the original order. -/
theorem group_ungroup_roundtrip (tw : TreeWidget) (col : Nat)
    (hflat : tw.grouped_column_name = "") (hb : iidBound tw)
    (hname : tw.headerLabels.getD col "" ≠ "") :
    ((ungroup_all (group_by_column tw col)).topLevelItems.map
        (fun t => t.item.iid)).Perm
      (tw.topLevelItems.map (fun t => t.item.iid)) ∧
    (ungroup_all (group_by_column tw col)).grouped_column_name = "" := by
  obtain ⟨htop, hname2, _⟩ := grouped_topLevel tw col hflat hb
  have hgrp : ¬((group_by_column tw col).grouped_column_name = "") := by
    rw [hname2]
    exact hname
  have hbound := createItemGroups_pairs_bound tw col hb
  have hfold := ungroupFold_eq
    (createItemGroups (tw.topLevelItems.map (fun t => (t.item.text col, t.item))))
    tw.nextIid [] hbound (by simp)
  rw [List.append_nil] at hfold
  have hu : (ungroup_all (group_by_column tw col)).topLevelItems
      = ((createItemGroups (tw.topLevelItems.map
          (fun t => (t.item.text col, t.item)))).map (fun g => g.2)).flatten.map
        (fun c => TNode.mk c []) := by
    unfold ungroup_all
    rw [if_neg hgrp]
    show (group_by_column tw col).topLevelItems.foldl ungroupStep
        (group_by_column tw col).topLevelItems = _
    rw [htop, hfold, List.nil_append]
  constructor
  · rw [hu]
    have hmm : (((createItemGroups (tw.topLevelItems.map
        (fun t => (t.item.text col, t.item)))).map (fun g => g.2)).flatten.map
          (fun c => TNode.mk c [])).map (fun t => t.item.iid)
        = ((createItemGroups (tw.topLevelItems.map
          (fun t => (t.item.text col, t.item)))).map (fun g => g.2)).flatten.map
            Item.iid := by
      rw [List.map_map]
      rfl
    rw [hmm]
    have hperm := (createItemGroups_join_perm (tw.topLevelItems.map
      (fun t => (t.item.text col, t.item)))).map Item.iid
    refine hperm.trans ?_
    simp only [List.map_map]
    exact List.Perm.refl _
  · unfold ungroup_all
    rw [if_neg hgrp]

/-- Concrete instantiation of `group_ungroup_roundtrip` on the
interleaved demo tree: identities are conserved as a multiset and the
result is flat. -/
theorem group_ungroup_roundtrip_witness :
    ((ungroup_all (group_by_column demoInterleaved 2)).topLevelItems.map
        (fun t => t.item.iid)).Perm
      (demoInterleaved.topLevelItems.map (fun t => t.item.iid)) ∧
    (ungroup_all (group_by_column demoInterleaved 2)).grouped_column_name = "" :=
  group_ungroup_roundtrip demoInterleaved 2 rfl (by unfold iidBound; decide) (by decide)

/-! ### Claim C9: grouping by column 0 is not rejected by the core -/

/-- Counterexample to C9 as stated: `group_by_column 0` on the flat demo
tree raises no error and does NOT leave the projection unchanged — it
builds one group per distinct id value. -/
theorem group_by_zero_counterexample :
    (group_by_column demoFlat 0).topLevelItems ≠ demoFlat.topLevelItems := by
  decide

/-- Claim C9 (amended): the core `group_by_column 0` performs ordinary
grouping: it records column 0's header label as the grouped column and
changes the projection whenever rows exist.  Rejection of grouping by
column 0 exists only in the UI layer (the context-menu action is
disabled). -/
theorem group_by_column_zero_not_rejected (tw : TreeWidget)
    (hflat : tw.grouped_column_name = "")
    (hlab : tw.headerLabels = tw.column_name_list)
    (hb : iidBound tw) (hne : tw.topLevelItems ≠ []) :
    (group_by_column tw 0).grouped_column_name = tw.column_name_list.getD 0 "" ∧
    (group_by_column tw 0).topLevelItems ≠ tw.topLevelItems := by
  obtain ⟨htop, hname2, _⟩ := grouped_topLevel tw 0 hflat hb
  refine ⟨by rw [hname2, hlab], ?_⟩
  rw [htop]
  obtain ⟨t, rest, h⟩ := List.exists_cons_of_ne_nil hne
  · have hpair : (t.item.text 0, t.item) ∈ tw.topLevelItems.map
        (fun u => (u.item.text 0, u.item)) :=
      List.mem_map.mpr ⟨t, by rw [h]; exact List.mem_cons_self t rest, rfl⟩
    obtain ⟨ms, hms, _⟩ := createItemGroups_mem
      (tw.topLevelItems.map (fun u => (u.item.text 0, u.item)))
      (t.item.text 0, t.item) hpair
    cases hg : createItemGroups (tw.topLevelItems.map
        (fun u => (u.item.text 0, u.item))) with
    | nil =>
      rw [hg] at hms
      cases hms
    | cons g0 gs =>
      rw [buildGroups_cons, h]
      intro heq
      injection heq with h1 h2
      have hlt : t.item.iid < tw.nextIid :=
        (hb t (by rw [h]; exact List.mem_cons_self t rest)).1
      rw [← h1] at hlt
      simp only [mkGroupItem] at hlt
      exact absurd hlt (Nat.lt_irrefl tw.nextIid)

/-- Concrete instantiation of `group_by_column_zero_not_rejected` on the
flat demo tree. -/
theorem group_by_column_zero_not_rejected_witness :
    (group_by_column demoFlat 0).grouped_column_name
        = demoFlat.column_name_list.getD 0 "" ∧
    (group_by_column demoFlat 0).topLevelItems ≠ demoFlat.topLevelItems :=
  group_by_column_zero_not_rejected demoFlat rfl rfl (by unfold iidBound; decide)
    (by decide)

/-! ### Claim C7: a bad rule is not a visibility no-op -/

/-- Counterexample to C7 as stated: a filter pass with a rule naming an
unknown column is NOT a no-op on visibility — the fully visible flat demo
tree ends with every row hidden. -/
theorem filter_error_counterexample :
    ((apply_filters rmNone demoFlat ["id", "Name", "City"]
        [FilterCriteria.mk "Nope" "contains" "a" false false]).1.topLevelItems.map
        (fun t => t.item.hidden))
      ≠ demoFlat.topLevelItems.map (fun t => t.item.hidden) := by
  decide

/-- Claim C7 (amended): when some stored rule names an unknown column or
condition, `_apply_filters` hides every item first and the per-rule
lookup then raises, so the operation ends with the whole tree hidden and
the error propagating to the caller; the previous visible/hidden state is
not retained. -/
theorem apply_filters_error_hides_all (rm : Bool → String → String → Bool)
    (tw : TreeWidget) (cols : List String) (cs : List FilterCriteria)
    (h : ∃ c ∈ cs, criterionError cols c ≠ none) :
    ∃ e, apply_filters rm tw cols cs = (hideAllItems tw, some e) := by
  obtain ⟨e, he⟩ := applyFiltersGo_err rm (hideAllItems tw) cols (get_all_items tw) cs h
  exact ⟨e, he⟩

/-- Concrete instantiation of `apply_filters_error_hides_all` on the flat
demo tree with an unknown-column rule. -/
theorem apply_filters_error_hides_all_witness :
    ∃ e, apply_filters rmNone demoFlat ["id", "Name", "City"]
        [FilterCriteria.mk "Nope" "contains" "a" false false]
      = (hideAllItems demoFlat, some e) :=
  apply_filters_error_hides_all rmNone demoFlat ["id", "Name", "City"]
    [FilterCriteria.mk "Nope" "contains" "a" false false]
    ⟨FilterCriteria.mk "Nope" "contains" "a" false false, by decide, by decide⟩

/-! ### Claim C2: match scope of the two `find_match_items` variants -/

theorem mem_get_all_items_of_top {tw : TreeWidget} {x : Item}
    (h : x ∈ tw.topLevelItems.map (fun t => t.item)) : x ∈ get_all_items tw := by
  obtain ⟨t, ht, rfl⟩ := List.mem_map.mp h
  exact (extractGo_mem tw.topLevelItems t.item).mpr ⟨t, ht, Or.inl rfl⟩

theorem scope_sub (tw : TreeWidget) (level : Nat) :
    ∀ x ∈ get_all_items_at_child_level tw level, x ∈ get_all_items tw := by
  intro x hx
  unfold get_all_items_at_child_level at hx
  by_cases h : level = 0
  · rw [if_pos h] at hx
    exact mem_get_all_items_of_top hx
  · rw [if_neg h] at hx
    exact (List.mem_filter.mp hx).1

theorem scoped_filter_mem (univ allAt cands : List Item) (p : Item → Bool) (neg : Bool)
    (hnd : (univ.map Item.iid).Nodup)
    (hAllSub : ∀ x ∈ allAt, x ∈ univ) (hCandSub : ∀ x ∈ cands, x ∈ univ)
    (hAllCand : ∀ x ∈ allAt, x ∈ cands) (x : Item) :
    x ∈ (if neg then allAt.filter
          (fun a => !(itemIn a (intersection allAt (cands.filter p))))
        else intersection allAt (cands.filter p))
      ↔ x ∈ allAt ∧ p x = !neg := by
  have hinj : ∀ a ∈ univ, ∀ b ∈ univ, a.iid = b.iid → a = b := by
    intro a ha b hb hab
    exact List.inj_on_of_nodup_map hnd ha hb hab
  have hmAt : ∀ y, y ∈ intersection allAt (cands.filter p) ↔ y ∈ allAt ∧ p y = true := by
    intro y
    constructor
    · intro hy
      have h1 : y ∈ allAt := mem_of_mem_intersection hy
      have h2 : itemIn y (cands.filter p) = true := (List.mem_filter.mp hy).2
      obtain ⟨b, hb, hba⟩ := List.any_eq_true.mp h2
      have hbf := List.mem_filter.mp hb
      have hby : b = y := hinj b (hCandSub b hbf.1) y (hAllSub y h1) (beq_iff_eq.mp hba)
      exact ⟨h1, hby ▸ hbf.2⟩
    · rintro ⟨h1, h2⟩
      refine List.mem_filter.mpr ⟨h1, ?_⟩
      exact itemIn_of_mem (List.mem_filter.mpr ⟨hAllCand y h1, h2⟩)
  cases neg with
  | false =>
    rw [if_neg (by simp), hmAt x]
    simp
  | true =>
    rw [if_pos rfl]
    constructor
    · intro hx
      have h1 := (List.mem_filter.mp hx).1
      have h2 := (List.mem_filter.mp hx).2
      refine ⟨h1, ?_⟩
      cases hp : p x with
      | false => simp
      | true =>
        have hxm : x ∈ intersection allAt (cands.filter p) := (hmAt x).mpr ⟨h1, hp⟩
        rw [itemIn_of_mem hxm] at h2
        cases h2
    · rintro ⟨h1, h2⟩
      refine List.mem_filter.mpr ⟨h1, ?_⟩
      cases hin : itemIn x (intersection allAt (cands.filter p)) with
      | false => rfl
      | true =>
        obtain ⟨b, hb, hba⟩ := List.any_eq_true.mp hin
        have hbm := (hmAt b).mp hb
        have hbx : b = x := hinj b (hAllSub b hbm.1) x (hAllSub x h1) (beq_iff_eq.mp hba)
        rw [hbx] at hbm
        rw [hbm.2] at h2
        cases h2

theorem scope_level_zero (tw : TreeWidget) :
    get_all_items_at_child_level tw 0 = tw.topLevelItems.map (fun t => t.item) := by
  unfold get_all_items_at_child_level
  rw [if_pos rfl]

theorem find_body_characterization (rm : Bool → String → String → Bool)
    (tw : TreeWidget) (kw : String) (cond : Condition) (cs neg : Bool) (idx : Nat)
    (grouped : Bool) (hnd : ((get_all_items tw).map Item.iid).Nodup) :
    ∀ x, x ∈ (if neg then
          (get_all_items_at_child_level tw (if grouped then 1 else 0)).filter
            (fun a => !(itemIn a (intersection
              (get_all_items_at_child_level tw (if grouped then 1 else 0))
              (findItems rm tw kw cond cs grouped idx))))
        else intersection (get_all_items_at_child_level tw (if grouped then 1 else 0))
          (findItems rm tw kw cond cs grouped idx))
      ↔ x ∈ get_all_items_at_child_level tw (if grouped then 1 else 0)
          ∧ matchesText rm cond cs kw (x.text idx) = !neg := by
  cases grouped with
  | false =>
    intro x
    have hsc : get_all_items_at_child_level tw (if false then 1 else 0)
        = tw.topLevelItems.map (fun t => t.item) := scope_level_zero tw
    have hfi : findItems rm tw kw cond cs false idx
        = (tw.topLevelItems.map (fun t => t.item)).filter
            (fun a => matchesText rm cond cs kw (a.text idx)) := rfl
    rw [hsc, hfi]
    exact scoped_filter_mem (get_all_items tw) _ _ _ neg hnd
      (fun y hy => mem_get_all_items_of_top hy) (fun y hy => mem_get_all_items_of_top hy)
      (fun y hy => hy) x
  | true =>
    intro x
    have hfi : findItems rm tw kw cond cs true idx
        = (get_all_items tw).filter (fun a => matchesText rm cond cs kw (a.text idx)) := rfl
    rw [hfi]
    exact scoped_filter_mem (get_all_items tw) _ _ _ neg hnd
      (scope_sub tw _) (fun y hy => hy) (fun y hy => scope_sub tw _ y hy) x

/-- Claim C2 (amended): the widgets variant
(`widgets/advanced_filter_search_widget.py`) applies NO special case for
the grouped column — when grouped its candidates are always the level-1
nodes matched recursively in the rule's own column, and when flat the
level-0 nodes; only the legacy variant (`src/AdvancedFilterSearch.py`)
implements the claim's special case, scoping a rule on the grouped column
to the level-0 group nodes matched non-recursively by the group key text
(column 0); off that special case the two variants coincide. -/
theorem find_scope_characterization (rm : Bool → String → String → Bool)
    (tw : TreeWidget) (cols : List String) (col condS kw : String) (neg cs : Bool)
    (cond : Condition) (idx : Nat)
    (hc : conditionOfString condS = some cond)
    (hi : cols.findIdx? (fun n => n == col) = some idx)
    (hnd : ((get_all_items tw).map Item.iid).Nodup) :
    (∃ res, find_match_items rm tw cols col condS kw neg cs = .ok res ∧
      ∀ x, x ∈ res ↔
        x ∈ get_all_items_at_child_level tw
            (if tw.grouped_column_name != "" then 1 else 0)
          ∧ matchesText rm cond cs kw (x.text idx) = !neg) ∧
    (tw.grouped_column_name ≠ "" → col = tw.grouped_column_name →
      ∃ res, legacy_find_match_items rm tw cols col condS kw neg cs = .ok res ∧
        ∀ x, x ∈ res ↔
          x ∈ tw.topLevelItems.map (fun t => t.item)
            ∧ matchesText rm cond cs kw (x.text 0) = !neg) ∧
    (tw.grouped_column_name = "" ∨ col ≠ tw.grouped_column_name →
      legacy_find_match_items rm tw cols col condS kw neg cs
        = find_match_items rm tw cols col condS kw neg cs) := by
  have hw : find_match_items rm tw cols col condS kw neg cs
      = .ok (if neg then
          (get_all_items_at_child_level tw
            (if tw.grouped_column_name != "" then 1 else 0)).filter
            (fun a => !(itemIn a (intersection
              (get_all_items_at_child_level tw
                (if tw.grouped_column_name != "" then 1 else 0))
              (findItems rm tw kw cond cs (tw.grouped_column_name != "") idx))))
        else intersection
          (get_all_items_at_child_level tw
            (if tw.grouped_column_name != "" then 1 else 0))
          (findItems rm tw kw cond cs (tw.grouped_column_name != "") idx)) := by
    unfold find_match_items
    rw [hc, hi]
  refine ⟨⟨_, hw, ?_⟩, ?_, ?_⟩
  · intro x
    exact find_body_characterization rm tw kw cond cs neg idx
      (tw.grouped_column_name != "") hnd x
  · intro hne hcol
    have hb1 : (tw.grouped_column_name != "") = true := by simp [hne]
    have hb2 : (col == tw.grouped_column_name) = true := by simp [hcol]
    have hl : legacy_find_match_items rm tw cols col condS kw neg cs
        = .ok (if neg then
            (get_all_items_at_child_level tw (if false then 1 else 0)).filter
              (fun a => !(itemIn a (intersection
                (get_all_items_at_child_level tw (if false then 1 else 0))
                (findItems rm tw kw cond cs false 0))))
          else intersection (get_all_items_at_child_level tw (if false then 1 else 0))
            (findItems rm tw kw cond cs false 0)) := by
      unfold legacy_find_match_items
      rw [hc]
      simp only [hb1, hb2, Bool.true_and, Bool.not_true, Bool.and_false, if_true]
    refine ⟨_, hl, ?_⟩
    intro x
    have hbody := find_body_characterization rm tw kw cond cs neg 0 false hnd x
    rw [show get_all_items_at_child_level tw (if false then 1 else 0)
        = tw.topLevelItems.map (fun t => t.item) from scope_level_zero tw] at hbody
    exact hbody
  · intro hor
    rcases hor with hgr | hne
    · have hb1 : (tw.grouped_column_name != "") = false := by simp [hgr]
      unfold legacy_find_match_items find_match_items
      rw [hc, hi]
      simp only [hb1, Bool.false_and, Bool.not_false, Bool.and_true]
      rfl
    · have hb2 : (col == tw.grouped_column_name) = false := by
        simp [hne]
      unfold legacy_find_match_items find_match_items
      rw [hc, hi]
      simp only [hb2, Bool.and_false, Bool.not_false, Bool.and_true]
      rfl

/-- Counterexample to C2 as stated: in the widgets variant, a rule on the
currently grouped column (City, grouped demo tree) returns the level-1
row nodes matched recursively, not the level-0 group nodes matched by
group key text — the result here is the two NY rows, which sit at child
level 1. -/
theorem find_scope_counterexample :
    find_match_items rmNone demoGrouped ["id", "Name", "City"] "City" "exact_match" "NY"
        false true
      = .ok [Item.mk 1 ["1", "Alice", "NY"] false, Item.mk 2 ["2", "Bob", "NY"] false] ∧
    childLevelIn demoGrouped (Item.mk 1 ["1", "Alice", "NY"] false) = 1 := by
  constructor
  · rfl
  · decide

/-- Concrete instantiation of `find_scope_characterization` (the legacy
special case) on the grouped demo tree with a rule on the grouped City
column: the legacy result is scoped to the top-level group nodes matched
by group key text. -/
theorem find_scope_characterization_witness :
    ∃ res, legacy_find_match_items rmNone demoGrouped ["id", "Name", "City"] "City"
        "exact_match" "NY" false false = .ok res ∧
      ∀ x, x ∈ res ↔
        x ∈ demoGrouped.topLevelItems.map (fun t => t.item)
          ∧ matchesText rmNone Condition.exact_match false "NY" (x.text 0) = !false :=
  (find_scope_characterization rmNone demoGrouped ["id", "Name", "City"] "City"
    "exact_match" "NY" false false Condition.exact_match 2 (by decide) (by decide)
    (by decide)).2.1 (by decide) (by decide)

end Patw
